import Mathlib

/-!
Shallow embedding of the resume-editing backend (`backend/app` of the
repository): the structured-output extraction pipeline (`llm.py`), the
pydantic schema validation (`resume_schema.py`), the LaTeX rendering engine
(`render.py`) and the chat confirmation state machine (`main.py`), together
with proofs about the specified properties.

Machine strings are modelled as Lean `String`s (lists of characters);
Python dictionaries parsed from JSON are modelled by the `Json` inductive
type below.  All definitions are executable.
-/

namespace ResumeProj

/-- ASCII whitespace stripped by the embedding of Python `str.strip()`. -/
def pyWs (c : Char) : Bool :=
  c = ' ' || c = '\t' || c = '\n' || c = '\r' || c = Char.ofNat 11 || c = Char.ofNat 12

/-- Left strip, as in Python `str.lstrip()`. -/
def lstripL (l : List Char) : List Char := l.dropWhile pyWs

/-- Right strip, as in Python `str.rstrip()`. -/
def rstripL (l : List Char) : List Char := (l.reverse.dropWhile pyWs).reverse

/-- Both-ends strip over characters, as in Python `str.strip()`. -/
def pyStripL (l : List Char) : List Char := rstripL (lstripL l)

/-- Python `str.strip()`. -/
def pyStrip (s : String) : String := String.mk (pyStripL s.toList)

/-- JSON values, the model of Python values produced by `json.loads`.
Numbers are kept as their literal text, which is all the code under
verification ever inspects. -/
inductive Json where
  | null : Json
  | bool (b : Bool) : Json
  | num (lit : String) : Json
  | str (s : String) : Json
  | arr (items : List Json) : Json
  | obj (fields : List (String × Json)) : Json

/-- Escape one character of a JSON string literal for serialization. -/
def escJsonChar (c : Char) : List Char :=
  if c = '\\' then ['\\', '\\'] else if c = '"' then ['\\', '"'] else [c]

/-- Serialize a JSON string literal (quotes plus escaped body). -/
def renderJString (s : String) : List Char :=
  '"' :: (s.toList.map escJsonChar).flatten ++ ['"']

mutual

/-- Serialize a JSON value to text. -/
def Json.render : Json → List Char
  | .null => "null".toList
  | .bool true => "true".toList
  | .bool false => "false".toList
  | .num lit => lit.toList
  | .str s => renderJString s
  | .arr items => '[' :: renderJList items ++ [']']
  | .obj fields => '{' :: renderJObj fields ++ ['}']

/-- Serialize the comma-separated items of a JSON array. -/
def renderJList : List Json → List Char
  | [] => []
  | [v] => Json.render v
  | v :: rest => Json.render v ++ ',' :: renderJList rest

/-- Serialize the comma-separated members of a JSON object. -/
def renderJObj : List (String × Json) → List Char
  | [] => []
  | [(k, v)] => renderJString k ++ ':' :: Json.render v
  | (k, v) :: rest => renderJString k ++ ':' :: Json.render v ++ ',' :: renderJObj rest

end

/-- The backquote character, written via its code point. -/
def backquote : Char := Char.ofNat 96

/-- Does the character list begin with a triple-backquote fence marker? -/
def fenceHead : List Char → Bool
  | c1 :: c2 :: c3 :: _ => c1 = backquote && c2 = backquote && c3 = backquote
  | _ => false

/-- Worker for Python `str.split("BQBQBQ")` (three backquotes), leftmost
non-overlapping occurrences. -/
def splitFenceGo : List Char → List Char → List (List Char)
  | [], acc => [acc.reverse]
  | c :: rest, acc =>
    if fenceHead (c :: rest) then acc.reverse :: splitFenceGo (rest.drop 2) []
    else splitFenceGo rest (c :: acc)
termination_by l _ => l.length
decreasing_by
  · simp only [List.length_drop, List.length_cons]
    omega
  · simp only [List.length_cons]
    omega

/-- Embedding of `_strip_fences` (llm.py lines 21-28): strip outer fence and
an optional leading `json` language tag. -/
def stripFences (text : String) : String :=
  let value := pyStripL text.toList
  if fenceHead value then
    let value2 :=
      match splitFenceGo value [] with
      | _ :: p1 :: _ => pyStripL p1
      | _ => value
    if "json".toList.isPrefixOf (value2.map Char.toLower) then
      String.mk (pyStripL (value2.drop 4))
    else String.mk value2
  else String.mk value

/-- Failure modes of `_extract_json_object` (the three `ValueError`s). -/
inductive ExtractErr where
  | emptyResponse
  | noObject
  | unterminated
deriving DecidableEq

/-- The brace-depth scanning loop of `_extract_json_object` (llm.py lines
46-68): one step per character, carrying the absolute index, the depth, the
in-string flag and the escaped flag; returns the index of the closing brace
at which the depth returns to zero. -/
def scanLoop : List Char → Nat → Int → Bool → Bool → Option Nat
  | [], _, _, _, _ => none
  | c :: rest, i, depth, inString, escaped =>
    if escaped then scanLoop rest (i+1) depth inString false
    else if c = '\\' then scanLoop rest (i+1) depth inString true
    else if c = '"' then scanLoop rest (i+1) depth (!inString) escaped
    else if inString then scanLoop rest (i+1) depth inString escaped
    else if c = '{' then scanLoop rest (i+1) (depth+1) inString escaped
    else if c = '}' then
      (if depth - 1 = 0 then some i else scanLoop rest (i+1) (depth-1) inString escaped)
    else scanLoop rest (i+1) depth inString escaped

/-- Embedding of `_extract_json_object` (llm.py lines 31-72). -/
def extractJsonObject (text : String) : Except ExtractErr String :=
  let s := (stripFences text).toList
  if s.isEmpty then .error .emptyResponse
  else if s.head? = some '{' ∧ s.getLast? = some '}' then .ok (String.mk s)
  else
    match s.findIdx? (fun c => c = '{') with
    | none => .error .noObject
    | some start =>
      match scanLoop (s.drop start) start 0 false false with
      | none => .error .unterminated
      | some e => .ok (String.mk ((s.drop start).take (e - start + 1)))

/-! ### Schema records (resume_schema.py)

Every field carries the same default as the pydantic model: empty string or
empty list.  The Python field `end` is spelled `endDate` because `end` is a
Lean keyword. -/

structure Header where
  name : String := ""
  email : String := ""
  phone : String := ""
  linkedin : String := ""
  github : String := ""
  portfolio : String := ""
  location : String := ""
deriving DecidableEq

structure EducationEntry where
  school : String := ""
  degree : String := ""
  major : String := ""
  grad : String := ""
  gpa : String := ""
  coursework : List String := []
deriving DecidableEq

structure RoleEntry where
  company : String := ""
  location : String := ""
  role : String := ""
  start : String := ""
  endDate : String := ""
  bullets : List String := []
deriving DecidableEq

structure ProjectEntry where
  name : String := ""
  link : String := ""
  stack : List String := []
  start : String := ""
  endDate : String := ""
  bullets : List String := []
deriving DecidableEq

structure LeadershipEntry where
  org : String := ""
  title : String := ""
  start : String := ""
  endDate : String := ""
  bullets : List String := []
deriving DecidableEq

/-- The `Skills` pydantic model (resume_schema.py lines 44-48).  It has
exactly the four flat list fields; there is no `categories` field. -/
structure Skills where
  languages : List String := []
  frameworks : List String := []
  tools : List String := []
  concepts : List String := []
deriving DecidableEq

/-- The `Resume` pydantic model (resume_schema.py lines 50-57). -/
structure Resume where
  header : Header := {}
  education : List EducationEntry := []
  skills : Skills := {}
  experience : List RoleEntry := []
  projects : List ProjectEntry := []
  leadership : List LeadershipEntry := []
  awards : List String := []
deriving DecidableEq

/-! ### Python float parsing (for the GPA display rule)

The embedding of `float(gpa)` used by `_gpa_should_show`.  Finite values are
modelled with exact rational arithmetic over the decimal literal; `inf`,
`infinity` and `nan` spellings are recognised case-insensitively, and
underscores are accepted between digits as in Python. -/

/-- Numeric value of a decimal digit character. -/
def digitVal (c : Char) : Nat := c.toNat - 48

/-- Worker reading the rest of a digit group in which every underscore must
sit between two digits. -/
def digitsUGo : List Char → List Nat → Option (List Nat)
  | [], acc => some acc.reverse
  | '_' :: c :: rest, acc => if c.isDigit then digitsUGo rest (digitVal c :: acc) else none
  | ['_'], _ => none
  | c :: rest, acc => if c.isDigit then digitsUGo rest (digitVal c :: acc) else none

/-- Parse a non-empty digit group with optional medial underscores. -/
def digitsU : List Char → Option (List Nat)
  | [] => none
  | c :: rest => if c.isDigit then digitsUGo rest [digitVal c] else none

/-- Value of a most-significant-first digit list. -/
def digitsVal (ds : List Nat) : Nat := ds.foldl (fun a d => 10 * a + d) 0

/-- Split a character list at the first separator character, if any. -/
def splitAtCh (p : Char → Bool) (l : List Char) : List Char × Option (List Char) :=
  match l.span (fun c => !(p c)) with
  | (before, []) => (before, none)
  | (before, _ :: rest) => (before, some rest)

/-- Parse the mantissa `digits[.digits]` of a Python float literal,
returning the digit value and the number of fractional digits: the decimal
`d1…dm.f1…fk` denotes `digitsVal (d ++ f) / 10^k`. -/
def parseMantissa (l : List Char) : Option (Nat × Nat) :=
  let (ip, fpOpt) := splitAtCh (fun c => c = '.') l
  match fpOpt with
  | none => (digitsU ip).map (fun ds => (digitsVal ds, 0))
  | some fp =>
    if ip.isEmpty && fp.isEmpty then none
    else
      let ipv : Option (List Nat) := if ip.isEmpty then some [] else digitsU ip
      let fpv : Option (List Nat) := if fp.isEmpty then some [] else digitsU fp
      match ipv, fpv with
      | some a, some b => some (digitsVal (a ++ b), b.length)
      | _, _ => none

/-- Parse the exponent part (after `e`/`E`) of a Python float literal. -/
def parseExp (l : List Char) : Option Int :=
  match l with
  | [] => none
  | '+' :: rest => (digitsU rest).map (fun ds => (digitsVal ds : Int))
  | '-' :: rest => (digitsU rest).map (fun ds => -(digitsVal ds : Int))
  | _ => (digitsU l).map (fun ds => (digitsVal ds : Int))

/-- Parse an unsigned decimal Python float literal `mantissa[e exp]`,
returning the digit value and the power-of-ten scale: the literal denotes
`value / 10^scale` (a negative scale multiplies). -/
def parseDecimal (l : List Char) : Option (Nat × Int) :=
  let (m, eOpt) := splitAtCh (fun c => c = 'e' || c = 'E') l
  match eOpt with
  | none => (parseMantissa m).map (fun p => (p.1, (p.2 : Int)))
  | some e =>
    match parseMantissa m, parseExp e with
    | some p, some ex => some (p.1, (p.2 : Int) - ex)
    | _, _ => none

/-- Result of Python `float(...)`: a finite value `num / 10^scale` in exact
decimal form, an infinity, or nan. -/
inductive PyFloat where
  | fin (num : Int) (scale : Int)
  | infty (pos : Bool)
  | nan
deriving DecidableEq

/-- The rational value of a finite parsed float `num / 10^scale`. -/
def decValue (num : Int) (scale : Int) : ℚ :=
  if 0 ≤ scale then (num : ℚ) / (10 : ℚ) ^ scale.toNat
  else (num : ℚ) * (10 : ℚ) ^ (-scale).toNat

/-- Embedding of Python `float(s)` over character lists: strip whitespace,
read an optional sign, recognise `inf`/`infinity`/`nan`, else parse a
decimal literal; `none` models the `ValueError`. -/
def pyFloatL (l : List Char) : Option PyFloat :=
  let t := pyStripL l
  let sb : Bool × List Char :=
    match t with
    | '+' :: rest => (false, rest)
    | '-' :: rest => (true, rest)
    | _ => (false, t)
  let low := sb.2.map Char.toLower
  if low = "inf".toList ∨ low = "infinity".toList then some (.infty (!sb.1))
  else if low = "nan".toList then some .nan
  else
    match parseDecimal sb.2 with
    | some p => some (.fin (if sb.1 then -(p.1 : Int) else (p.1 : Int)) p.2)
    | none => none

/-- Embedding of Python `float(s)`. -/
def pyFloat (s : String) : Option PyFloat := pyFloatL s.toList

/-- The comparison `v >= 3.5` on a parsed float: `nan` compares false,
infinities by their sign, and a finite `num / 10^scale` by exact integer
arithmetic (`7/2 ≤ num / 10^scale` cleared of denominators). -/
def pyFloatGe35 : PyFloat → Bool
  | .fin num scale =>
    if 0 ≤ scale then 7 * (10 : Int) ^ scale.toNat ≤ 2 * num
    else 7 ≤ 2 * num * (10 : Int) ^ (-scale).toNat
  | .infty pos => pos
  | .nan => false

/-- Embedding of `_gpa_should_show` (render.py lines 56-62). -/
def gpaShouldShow (gpa : String) : Bool :=
  if gpa = "" then false
  else
    match pyFloat gpa with
    | some v => pyFloatGe35 v
    | none => true

/-! ### LaTeX escaping and the education section (render.py) -/

/-- Python `str.replace` specialised to a single-character pattern. -/
def replaceChar (pat : Char) (rep : List Char) : List Char → List Char
  | [] => []
  | c :: rest => (if c = pat then rep else [c]) ++ replaceChar pat rep rest

/-- The `LATEX_REPLACEMENTS` table (render.py lines 8-19) in insertion
order, backslash last exactly as in the source dict. -/
def latexReplacements : List (Char × String) :=
  [('&', "\\&"), ('%', "\\%"), ('$', "\\$"), ('#', "\\#"), ('_', "\\_"),
   ('{', "\\\x7b"), ('}', "\\\x7d"),
   ('~', "\\textasciitilde\x7b\x7d"), ('^', "\\textasciicircum\x7b\x7d"),
   ('\\', "\\textbackslash\x7b\x7d")]

/-- Embedding of `_escape_latex` (render.py lines 22-30): the backslash is
replaced first, then the remaining table entries in insertion order are
applied to the whole intermediate string, exactly as the chained Python
`str.replace` calls do. -/
def escapeLatexL (l : List Char) : List Char :=
  let e0 := replaceChar '\\' "\\textbackslash\x7b\x7d".toList l
  (latexReplacements.filter (fun kv => kv.1 ≠ '\\')).foldl
    (fun acc kv => replaceChar kv.1 kv.2.toList acc) e0

/-- Embedding of `_escape_latex` over strings (empty in, empty out). -/
def escapeLatex (s : String) : String :=
  if s = "" then "" else String.mk (escapeLatexL s.toList)

/-- Embedding of `_join_non_empty` (render.py lines 41-43). -/
def joinNonEmpty (parts : List String) (sep : String) : String :=
  String.intercalate sep (parts.filter (fun p => p ≠ ""))

/-- Embedding of `_section` (render.py lines 65-69); the source function is
called `_section`, a reserved word in Lean. -/
def latexSection (title body : String) : String :=
  let body2 := pyStrip body
  if body2 = "" then ""
  else "\\section*\x7b" ++ escapeLatex title ++ "\x7d\n" ++ body2 ++ "\n"

/-- The `lines` list built for one education entry by `_render_education`
(render.py lines 106-128). -/
def renderEduEntryLines (edu : EducationEntry) : List String :=
  let school := escapeLatex edu.school
  let degreeBits := String.intercalate " "
    (([escapeLatex edu.degree, escapeLatex edu.major]).filter (fun p => p ≠ ""))
  let grad := escapeLatex edu.grad
  let header := joinNonEmpty
    [(if school ≠ "" then "\\textbf\x7b" ++ school ++ "\x7d" else ""),
     (if grad ≠ "" then "\\hfill " ++ grad else "")] " "
  let l1 := if header ≠ "" then [header ++ " \\"] else []
  let l2 := if degreeBits ≠ "" then [degreeBits ++ " \\"] else []
  let l3 :=
    if edu.coursework ≠ [] then
      (let cw := String.intercalate ", "
        ((edu.coursework.filter (fun c => pyStrip c ≠ "")).map escapeLatex)
       if cw ≠ "" then ["\\textbf\x7bCoursework:\x7d " ++ cw] else [])
    else []
  let l4 := if gpaShouldShow edu.gpa then ["GPA: " ++ escapeLatex edu.gpa] else []
  l1 ++ l2 ++ l3 ++ l4

/-- Embedding of `_render_education` (render.py lines 104-129). -/
def renderEducation (r : Resume) : String :=
  let entries := r.education.filterMap (fun edu =>
    let lines := renderEduEntryLines edu
    if lines ≠ [] then some (String.intercalate "\n" lines) else none)
  latexSection "Education" (String.intercalate "\n\n" entries)

/-! ### Pydantic-style validation (resume_schema.py and llm.py models)

Validation of parsed JSON values against the pydantic models.  As in
pydantic v2: a missing field takes its default, a present field must have
the right type, and extra keys are ignored. -/

/-- Last-wins key lookup on the field list of a JSON object (Python dict
semantics: a key repeated in the JSON text keeps the last value). -/
def lookupLast (kvs : List (String × Json)) (k : String) : Option Json :=
  match kvs.reverse.find? (fun kv => kv.1 == k) with
  | some kv => some kv.2
  | none => none

/-- Key presence on a JSON object field list. -/
def hasKey (kvs : List (String × Json)) (k : String) : Bool :=
  kvs.any (fun kv => kv.1 == k)

/-- Validate against pydantic type `str`. -/
def vStr : Json → Option String
  | .str s => some s
  | _ => none

/-- Validate against pydantic type `List[str]`. -/
def vListStr : Json → Option (List String)
  | .arr items => items.mapM vStr
  | _ => none

/-- Validate against pydantic type `bool`. -/
def vBool : Json → Option Bool
  | .bool b => some b
  | _ => none

/-- Validate against pydantic type `Dict[str, Any]`: any JSON object. -/
def vDict : Json → Option Json
  | .obj f => some (Json.obj f)
  | _ => none

/-- Validate a list field element-wise. -/
def vList (v : Json → Option α) : Json → Option (List α)
  | .arr items => items.mapM v
  | _ => none

/-- A model field with a default: absent means the default, present must
validate. -/
def vField (kvs : List (String × Json)) (k : String) (dflt : α)
    (v : Json → Option α) : Option α :=
  match lookupLast kvs k with
  | none => some dflt
  | some j => v j

/-- Validate the `Header` model. -/
def validateHeader : Json → Option Header
  | .obj kvs => do
    let name ← vField kvs "name" "" vStr
    let email ← vField kvs "email" "" vStr
    let phone ← vField kvs "phone" "" vStr
    let linkedin ← vField kvs "linkedin" "" vStr
    let github ← vField kvs "github" "" vStr
    let portfolio ← vField kvs "portfolio" "" vStr
    let location ← vField kvs "location" "" vStr
    pure ⟨name, email, phone, linkedin, github, portfolio, location⟩
  | _ => none

/-- Validate the `EducationEntry` model. -/
def validateEdu : Json → Option EducationEntry
  | .obj kvs => do
    let school ← vField kvs "school" "" vStr
    let degree ← vField kvs "degree" "" vStr
    let major ← vField kvs "major" "" vStr
    let grad ← vField kvs "grad" "" vStr
    let gpa ← vField kvs "gpa" "" vStr
    let cw ← vField kvs "coursework" [] vListStr
    pure ⟨school, degree, major, grad, gpa, cw⟩
  | _ => none

/-- Validate the `RoleEntry` model. -/
def validateRole : Json → Option RoleEntry
  | .obj kvs => do
    let company ← vField kvs "company" "" vStr
    let location ← vField kvs "location" "" vStr
    let role ← vField kvs "role" "" vStr
    let start ← vField kvs "start" "" vStr
    let endv ← vField kvs "end" "" vStr
    let bullets ← vField kvs "bullets" [] vListStr
    pure ⟨company, location, role, start, endv, bullets⟩
  | _ => none

/-- Validate the `ProjectEntry` model. -/
def validateProject : Json → Option ProjectEntry
  | .obj kvs => do
    let name ← vField kvs "name" "" vStr
    let link ← vField kvs "link" "" vStr
    let stack ← vField kvs "stack" [] vListStr
    let start ← vField kvs "start" "" vStr
    let endv ← vField kvs "end" "" vStr
    let bullets ← vField kvs "bullets" [] vListStr
    pure ⟨name, link, stack, start, endv, bullets⟩
  | _ => none

/-- Validate the `LeadershipEntry` model. -/
def validateLeadership : Json → Option LeadershipEntry
  | .obj kvs => do
    let org ← vField kvs "org" "" vStr
    let title ← vField kvs "title" "" vStr
    let start ← vField kvs "start" "" vStr
    let endv ← vField kvs "end" "" vStr
    let bullets ← vField kvs "bullets" [] vListStr
    pure ⟨org, title, start, endv, bullets⟩
  | _ => none

/-- Validate the `Skills` model (resume_schema.py lines 44-48).  Exactly the
four flat list fields are read; any other key of the payload — in
particular a `categories` object — is ignored, as pydantic ignores extra
keys by default. -/
def validateSkills : Json → Option Skills
  | .obj kvs => do
    let languages ← vField kvs "languages" [] vListStr
    let frameworks ← vField kvs "frameworks" [] vListStr
    let tools ← vField kvs "tools" [] vListStr
    let concepts ← vField kvs "concepts" [] vListStr
    pure ⟨languages, frameworks, tools, concepts⟩
  | _ => none

/-- Validate the `Resume` model (`Resume.model_validate` on a parsed JSON
value). -/
def validateResume : Json → Option Resume
  | .obj kvs => do
    let header ← vField kvs "header" {} validateHeader
    let education ← vField kvs "education" [] (vList validateEdu)
    let skills ← vField kvs "skills" {} validateSkills
    let experience ← vField kvs "experience" [] (vList validateRole)
    let projects ← vField kvs "projects" [] (vList validateProject)
    let leadership ← vField kvs "leadership" [] (vList validateLeadership)
    let awards ← vField kvs "awards" [] vListStr
    pure ⟨header, education, skills, experience, projects, leadership, awards⟩
  | _ => none

/-- A string list as a JSON array. -/
def strArr (l : List String) : Json := .arr (l.map Json.str)

/-- `Header.model_dump()`, in pydantic field order. -/
def Header.dump (h : Header) : Json :=
  .obj [("name", .str h.name), ("email", .str h.email), ("phone", .str h.phone),
        ("linkedin", .str h.linkedin), ("github", .str h.github),
        ("portfolio", .str h.portfolio), ("location", .str h.location)]

/-- `EducationEntry.model_dump()`. -/
def EducationEntry.dump (e : EducationEntry) : Json :=
  .obj [("school", .str e.school), ("degree", .str e.degree), ("major", .str e.major),
        ("grad", .str e.grad), ("gpa", .str e.gpa), ("coursework", strArr e.coursework)]

/-- `RoleEntry.model_dump()`. -/
def RoleEntry.dump (e : RoleEntry) : Json :=
  .obj [("company", .str e.company), ("location", .str e.location), ("role", .str e.role),
        ("start", .str e.start), ("end", .str e.endDate), ("bullets", strArr e.bullets)]

/-- `ProjectEntry.model_dump()`. -/
def ProjectEntry.dump (e : ProjectEntry) : Json :=
  .obj [("name", .str e.name), ("link", .str e.link), ("stack", strArr e.stack),
        ("start", .str e.start), ("end", .str e.endDate), ("bullets", strArr e.bullets)]

/-- `LeadershipEntry.model_dump()`. -/
def LeadershipEntry.dump (e : LeadershipEntry) : Json :=
  .obj [("org", .str e.org), ("title", .str e.title),
        ("start", .str e.start), ("end", .str e.endDate), ("bullets", strArr e.bullets)]

/-- `Skills.model_dump()`. -/
def Skills.dump (s : Skills) : Json :=
  .obj [("languages", strArr s.languages), ("frameworks", strArr s.frameworks),
        ("tools", strArr s.tools), ("concepts", strArr s.concepts)]

/-- `Resume.model_dump()`, the full document snapshot as a JSON object. -/
def Resume.dump (r : Resume) : Json :=
  .obj [("header", r.header.dump),
        ("education", .arr (r.education.map EducationEntry.dump)),
        ("skills", r.skills.dump),
        ("experience", .arr (r.experience.map RoleEntry.dump)),
        ("projects", .arr (r.projects.map ProjectEntry.dump)),
        ("leadership", .arr (r.leadership.map LeadershipEntry.dump)),
        ("awards", strArr r.awards)]

/-! ### A model of `json.loads` (fuelled recursive descent) -/

/-- JSON whitespace. -/
def jWs (c : Char) : Bool := c = ' ' || c = '\t' || c = '\n' || c = '\r'

/-- Drop leading JSON whitespace. -/
def skipJWs (l : List Char) : List Char := l.dropWhile jWs

/-- Hex digit value. -/
def hexVal (c : Char) : Option Nat :=
  if c.isDigit then some (c.toNat - 48)
  else if 'a' ≤ c ∧ c ≤ 'f' then some (c.toNat - 87)
  else if 'A' ≤ c ∧ c ≤ 'F' then some (c.toNat - 55)
  else none

/-- Read a JSON string body after its opening quote; returns the decoded
content and the rest after the closing quote. -/
def parseJStringGo : Nat → List Char → List Char → Option (String × List Char)
  | 0, _, _ => none
  | _+1, [], _ => none
  | fuel+1, c :: rest, acc =>
    if c = '"' then some (String.mk acc.reverse, rest)
    else if c = '\\' then
      match rest with
      | [] => none
      | e :: rest2 =>
        if e = '"' then parseJStringGo fuel rest2 ('"' :: acc)
        else if e = '\\' then parseJStringGo fuel rest2 ('\\' :: acc)
        else if e = '/' then parseJStringGo fuel rest2 ('/' :: acc)
        else if e = 'b' then parseJStringGo fuel rest2 (Char.ofNat 8 :: acc)
        else if e = 'f' then parseJStringGo fuel rest2 (Char.ofNat 12 :: acc)
        else if e = 'n' then parseJStringGo fuel rest2 ('\n' :: acc)
        else if e = 'r' then parseJStringGo fuel rest2 ('\r' :: acc)
        else if e = 't' then parseJStringGo fuel rest2 ('\t' :: acc)
        else if e = 'u' then
          match rest2 with
          | h1 :: h2 :: h3 :: h4 :: rest3 =>
            match hexVal h1, hexVal h2, hexVal h3, hexVal h4 with
            | some a, some b, some c2, some d =>
              parseJStringGo fuel rest3 (Char.ofNat (((a * 16 + b) * 16 + c2) * 16 + d) :: acc)
            | _, _, _, _ => none
          | _ => none
        else none
    else parseJStringGo fuel rest (c :: acc)

/-- Take a leading run of decimal digits. -/
def takeDigits (l : List Char) : List Char × List Char := l.span Char.isDigit

/-- Read a JSON number literal (kept as text), rejecting leading zeros as
`json.loads` does. -/
def parseJNum (l : List Char) : Option (List Char × List Char) :=
  let p1 : List Char × List Char := match l with | '-' :: r => (['-'], r) | _ => ([], l)
  let ipr := takeDigits p1.2
  if ipr.1.isEmpty then none
  else if ipr.1.length > 1 ∧ ipr.1.head? = some '0' then none
  else
    let fpr : List Char × List Char :=
      match ipr.2 with
      | '.' :: r => (let dr := takeDigits r; ('.' :: dr.1, dr.2))
      | _ => ([], ipr.2)
    if fpr.1 = ['.'] then none
    else
      match fpr.2 with
      | e :: r3 =>
        if e = 'e' ∨ e = 'E' then
          let p2 : List Char × List Char :=
            match r3 with
            | '+' :: r => (['+'], r)
            | '-' :: r => (['-'], r)
            | _ => ([], r3)
          let edr := takeDigits p2.2
          if edr.1.isEmpty then none
          else some (p1.1 ++ ipr.1 ++ fpr.1 ++ e :: p2.1 ++ edr.1, edr.2)
        else some (p1.1 ++ ipr.1 ++ fpr.1, fpr.2)
      | [] => some (p1.1 ++ ipr.1 ++ fpr.1, [])

mutual

/-- Parse one JSON value (fuelled). -/
def parseJValue : Nat → List Char → Option (Json × List Char)
  | 0, _ => none
  | fuel+1, l =>
    let l1 := skipJWs l
    match l1 with
    | [] => none
    | c :: rest =>
      if c = '{' then parseJMembers fuel rest [] true
      else if c = '[' then parseJItems fuel rest [] true
      else if c = '"' then (parseJStringGo (rest.length + 1) rest []).map (fun p => (Json.str p.1, p.2))
      else if "true".toList.isPrefixOf l1 then some (.bool true, l1.drop 4)
      else if "false".toList.isPrefixOf l1 then some (.bool false, l1.drop 5)
      else if "null".toList.isPrefixOf l1 then some (.null, l1.drop 4)
      else if "NaN".toList.isPrefixOf l1 then some (.num "NaN", l1.drop 3)
      else if "Infinity".toList.isPrefixOf l1 then some (.num "Infinity", l1.drop 8)
      else if "-Infinity".toList.isPrefixOf l1 then some (.num "-Infinity", l1.drop 9)
      else (parseJNum l1).map (fun p => (Json.num (String.mk p.1), p.2))

/-- Parse the items of a JSON array after the opening bracket (fuelled). -/
def parseJItems : Nat → List Char → List Json → Bool → Option (Json × List Char)
  | 0, _, _, _ => none
  | fuel+1, l, acc, first =>
    let l1 := skipJWs l
    if first ∧ l1.head? = some ']' then some (.arr [], l1.tail)
    else
      match parseJValue fuel l1 with
      | none => none
      | some (v, r) =>
        match skipJWs r with
        | ',' :: r2 => parseJItems fuel r2 (v :: acc) false
        | ']' :: r2 => some (.arr (v :: acc).reverse, r2)
        | _ => none

/-- Parse the members of a JSON object after the opening brace (fuelled). -/
def parseJMembers : Nat → List Char → List (String × Json) → Bool →
    Option (Json × List Char)
  | 0, _, _, _ => none
  | fuel+1, l, acc, first =>
    let l1 := skipJWs l
    if first ∧ l1.head? = some '}' then some (.obj [], l1.tail)
    else
      match l1 with
      | '"' :: rest =>
        match parseJStringGo (rest.length + 1) rest [] with
        | none => none
        | some (k, r) =>
          match skipJWs r with
          | ':' :: r2 =>
            match parseJValue fuel (skipJWs r2) with
            | none => none
            | some (v, r3) =>
              match skipJWs r3 with
              | ',' :: r4 => parseJMembers fuel r4 ((k, v) :: acc) false
              | '}' :: r4 => some (.obj ((k, v) :: acc).reverse, r4)
              | _ => none
          | _ => none
      | _ => none

end

/-- Embedding of Python `json.loads` for the payloads the pipeline feeds
it: one JSON value followed only by whitespace. -/
def jsonLoads (s : String) : Option Json :=
  match parseJValue (s.length + 1) s.toList with
  | some (v, rest) => if (skipJWs rest).isEmpty then some v else none
  | none => none

/-! ### The proposal pipeline (llm.py) -/

/-- The `LLMEditProposal` pydantic model (llm.py lines 14-18);
`proposed_resume` is `Dict[str, Any]`, kept here as the JSON object. -/
structure LLMEditProposal where
  assistant_message : String
  edits_summary : List String
  proposed_resume : Json
  needs_confirmation : Bool

/-- Pydantic validation of `LLMEditProposal`: `assistant_message` (str) and
`proposed_resume` (dict) are required; `edits_summary` defaults to `[]`;
`needs_confirmation` defaults to `True`; extra keys are ignored; there is
no cross-field validator. -/
def validateProposal : Json → Option LLMEditProposal
  | .obj kvs => do
    let am ← (lookupLast kvs "assistant_message").bind vStr
    let es ← vField kvs "edits_summary" [] vListStr
    let pr ← (lookupLast kvs "proposed_resume").bind vDict
    let nc ← vField kvs "needs_confirmation" true vBool
    pure ⟨am, es, pr, nc⟩
  | _ => none

/-- Failure modes of `_parse_proposal_response`. -/
inductive ParseErr where
  | extraction (e : ExtractErr)
  | jsonDecode
  | schemaValidation
deriving DecidableEq

/-- Embedding of `_parse_proposal_response` (llm.py lines 75-79): extract
the JSON object from the raw text, parse it, validate it as an
`LLMEditProposal`, then validate `proposed_resume` as a `Resume`. -/
def parseProposalResponse (raw : String) : Except ParseErr LLMEditProposal :=
  match extractJsonObject raw with
  | .error e => .error (.extraction e)
  | .ok payload =>
    match jsonLoads payload with
    | none => .error .jsonDecode
    | some j =>
      match validateProposal j with
      | none => .error .schemaValidation
      | some p =>
        match validateResume p.proposed_resume with
        | none => .error .schemaValidation
        | some _ => .ok p

/-- The fixed apologetic message of the final safe fallback of
`propose_chat_edits` (llm.py lines 382-387). -/
def fallbackMessage : String :=
  "I ran into a formatting issue generating the edit plan. Try again with a broad command like:\n- “Rewrite all my experience and project bullets to be more professional.”\n- “Tighten my bullets to one line each, keeping the meaning the same.”"

/-- The safe fallback proposal (llm.py lines 381-391): fixed message, no
edits, the current resume snapshot, no confirmation required. -/
def fallbackProposal (resume : Resume) : LLMEditProposal :=
  ⟨fallbackMessage, [], resume.dump, false⟩

/-- One request to the generative backend, recorded by its sampling
temperature (1/5 for the first attempt, 0 for the repair retry). -/
structure GenCall where
  temperature : ℚ
deriving DecidableEq

/-- Embedding of `propose_chat_edits` (llm.py lines 304-391), parameterised
by the texts the backend returns for the first attempt and for the repair
retry.  `userMessage` (and the history) only shape the prompt sent to the
backend, whose replies are abstracted by `text1`/`text2`, so they do not
influence the result.  Also records the backend calls made.  All exceptions
from parsing the first text are caught (`except ValidationError` /
`except Exception`) and lead to the single repair retry; the fallback path
constructs a value and cannot raise, so the Lean embedding is a total
function. -/
def proposeChatEdits (resume : Resume) (userMessage : String) (text1 text2 : String) :
    LLMEditProposal × List GenCall :=
  match parseProposalResponse text1 with
  | .ok p => (p, [⟨1/5⟩])
  | .error _ =>
    match parseProposalResponse text2 with
    | .ok p => (p, [⟨1/5⟩, ⟨0⟩])
    | .error _ => (fallbackProposal resume, [⟨1/5⟩, ⟨0⟩])

/-! ### Intent classification and the chat endpoint (main.py) -/

/-- ASCII word character: the regex class behind the `\b` boundaries. -/
def isWordChar (c : Char) : Bool := c.isAlphanum || c = '_'

/-- Does `phrase` occur in `s` at position `i` with a word boundary on each
side?  (Every phrase used begins and ends with a letter.) -/
def boundedAt (s : List Char) (i : Nat) (phrase : List Char) : Bool :=
  phrase.isPrefixOf (s.drop i)
  && (match i, s.drop (i - 1) with
      | 0, _ => true
      | _+1, c :: _ => !(isWordChar c)
      | _+1, [] => true)
  && (match s.drop (i + phrase.length) with
      | [] => true
      | c :: _ => !(isWordChar c))

/-- Embedding of `bool(RE.search(message.lower()))` for a case-insensitive
pattern `\b(p1|...|pn)\b` of literal alternatives: some alternative occurs
somewhere in the lowercased message with word boundaries. -/
def searchPhrases (phrases : List String) (message : String) : Bool :=
  let l := message.toList.map Char.toLower
  (List.range (l.length + 1)).any (fun i => phrases.any (fun p => boundedAt l i p.toList))

/-- The alternatives of `AFFIRMATIVE_RE` (main.py lines 42-45). -/
def affirmativePhrases : List String :=
  ["yes", "yep", "yeah", "yup", "sure", "ok", "okay", "please do", "go ahead",
   "sounds good", "confirm", "apply it", "do it", "looks great"]

/-- The alternatives of `NEGATIVE_RE` (main.py lines 47-50). -/
def negativePhrases : List String :=
  ["no", "nope", "nah", "don't", "do not", "stop", "cancel", "never mind",
   "nevermind", "not now"]

/-- The alternatives of `NO_CHANGE_RE` (main.py lines 51-54), with the `?`
quantifiers (`changes?`, `it'?s`, `we'?re`) expanded into explicit
alternatives. -/
def noChangePhrases : List String :=
  ["nothing", "no change", "no changes", "looks good", "looks fine",
   "its fine", "it's fine", "leave it", "leave as is", "as is",
   "were good", "we're good", "all set", "just export", "ready to export",
   "good as is"]

/-- Embedding of `_is_affirmative` (main.py lines 73-74). -/
def isAffirmative (message : String) : Bool := searchPhrases affirmativePhrases message

/-- Embedding of `_is_negative` (main.py lines 77-78). -/
def isNegative (message : String) : Bool := searchPhrases negativePhrases message

/-- Embedding of `_is_no_change` (main.py lines 55-56). -/
def isNoChange (message : String) : Bool := searchPhrases noChangePhrases message

/-- Substring occurrence over character lists (Python `needle in hay`). -/
def isSubL (needle hay : List Char) : Bool :=
  (List.range (hay.length + 1)).any (fun i => needle.isPrefixOf (hay.drop i))

/-- A character of the tokenisation class of letters and apostrophe used by
`_normalize_chat_request`. -/
def isTokChar (c : Char) : Bool :=
  ('a' ≤ c && c ≤ 'z') || ('A' ≤ c && c ≤ 'Z') || c = Char.ofNat 39

/-- Number of maximal `[a-zA-Z']+` runs, i.e. the length of
`re.findall(r"[a-zA-Z']+", s)`: positions starting a run are the token
characters whose predecessor is not a token character. -/
def runCount (l : List Char) : Nat :=
  (l.zip ((' ' : Char) :: l)).countP (fun cp => isTokChar cp.1 && !(isTokChar cp.2))

/-- Embedding of `_normalize_chat_request` (main.py lines 81-105). -/
def normalizeChatRequest (userMessage : String) : String :=
  let msg := pyStrip userMessage
  if msg = "" then msg
  else
    let lowered := msg.toList.map Char.toLower
    let short : Bool := decide (runCount lowered ≤ 3)
    if short && (isSubL "bullet".toList lowered || isSubL "bullets".toList lowered) then
      "Rewrite all experience and project bullets to be concise, professional, and ATS-friendly while preserving facts."
    else if short && (isSubL "professional".toList lowered || isSubL "polish".toList lowered
        || isSubL "improve".toList lowered || isSubL "better".toList lowered) then
      "Polish my resume wording across all experience and project bullets without adding new facts."
    else if short && (isSubL "skills".toList lowered || isSubL "tech stack".toList lowered
        || isSubL "stack".toList lowered) then
      "Improve my resume skills section wording and organization while keeping all existing facts."
    else msg

/-- The per-document storage read by the chat endpoint: the draft resume
JSON, the parsed resume JSON, the chat history list and the pending-edit
record; `none` models an absent or unreadable storage key. -/
structure ChatState where
  draft : Option Json
  parsed : Option Json
  history : Option (List Json)
  pending : Option Json

/-- The exceptions the chat endpoint can propagate: both resume keys
absent, an invalid stored resume (`ValidationError`), or a pending record
without a `resume` key (`KeyError`). -/
inductive ChatErr where
  | missingResume
  | invalidResume
  | badPending
deriving DecidableEq

/-- The JSON-like response body of the chat endpoint (the branch-dependent
keys are optional). -/
structure ChatResponse where
  resume : Option Json := none
  proposed_resume : Option Json := none
  assistant_message : String
  edits_summary : Option Json := none
  needs_confirmation : Bool
  status : String

/-- A history turn `{role, content}`. -/
def mkTurn (role content : String) : Json :=
  .obj [("role", .str role), ("content", .str content)]

/-- Python dict assignment `d[k] = v` on a JSON object: replace the value
at the key, or append the pair if the key is absent. -/
def objSet (kvs : List (String × Json)) (k : String) (v : Json) :
    List (String × Json) :=
  if hasKey kvs k then kvs.map (fun kv => if kv.1 == k then (kv.1, v) else kv)
  else kvs ++ [(k, v)]

/-- Embedding of the `chat_resume` endpoint (main.py lines 170-321),
parameterised by the two backend texts consumed if the LLM branch runs.
Returns the updated storage state and the response body.  The source's
`except` handler around `propose_chat_edits` is unreachable here because
the embedded pipeline is total. -/
def chatResume (st : ChatState) (message : String) (text1 text2 : String) :
    Except ChatErr (ChatState × ChatResponse) :=
  let userMessage := pyStrip message
  let normalized := normalizeChatRequest userMessage
  let history := st.history.getD []
  let pendingKvs : Option (List (String × Json)) :=
    match st.pending with
    | some (.obj kvs) => some kvs
    | _ => none
  let pendingActive : Bool :=
    match pendingKvs with
    | some kvs =>
      (match lookupLast kvs "status" with
       | some (.str s) => s == "pending"
       | _ => false)
    | none => false
  match st.draft <|> st.parsed with
  | none => .error .missingResume
  | some srcJson =>
    match validateResume srcJson with
    | none => .error .invalidResume
    | some resume =>
      if pendingActive && isAffirmative userMessage then
        match pendingKvs with
        | none => .error .badPending
        | some kvs =>
          match lookupLast kvs "resume" with
          | none => .error .badPending
          | some pres =>
            match validateResume pres with
            | none => .error .invalidResume
            | some updated =>
              let am := "Great — I applied the edits and updated your resume. Want to export it now?"
              let hist2 := history ++ [mkTurn "user" userMessage, mkTurn "assistant" am]
              let pend2 := Json.obj (objSet kvs "status" (.str "applied"))
              .ok ({ draft := some updated.dump, parsed := st.parsed,
                     history := some hist2, pending := some pend2 },
                   { resume := some updated.dump,
                     assistant_message := am,
                     edits_summary := some ((lookupLast kvs "edits_summary").getD (.arr [])),
                     needs_confirmation := false,
                     status := "applied" })
      else if pendingActive && isNegative userMessage then
        match pendingKvs with
        | none => .error .badPending
        | some kvs =>
          let am := "No problem — tell me what you'd like to change next."
          let hist2 := history ++ [mkTurn "user" userMessage, mkTurn "assistant" am]
          let pend2 := Json.obj (objSet kvs "status" (.str "rejected"))
          .ok ({ draft := st.draft, parsed := st.parsed,
                 history := some hist2, pending := some pend2 },
               { resume := some resume.dump,
                 assistant_message := am,
                 needs_confirmation := false,
                 status := "rejected" })
      else if isNoChange userMessage && !pendingActive then
        let am := "Got it — no changes needed. Want to export it now?"
        let hist2 := history ++ [mkTurn "user" userMessage, mkTurn "assistant" am]
        .ok ({ draft := st.draft, parsed := st.parsed,
               history := some hist2, pending := st.pending },
             { resume := some resume.dump,
               assistant_message := am,
               edits_summary := some (.arr []),
               needs_confirmation := false,
               status := "info" })
      else
        let proposal := (proposeChatEdits resume normalized text1 text2).1
        let am := proposal.assistant_message
        let hist2 := history ++ [mkTurn "user" userMessage, mkTurn "assistant" am]
        let newPending : Option Json :=
          if proposal.needs_confirmation then
            some (.obj [("status", .str "pending"),
                        ("resume", proposal.proposed_resume),
                        ("edits_summary", strArr proposal.edits_summary)])
          else st.pending
        .ok ({ draft := st.draft, parsed := st.parsed,
               history := some hist2, pending := newPending },
             { proposed_resume := some proposal.proposed_resume,
               assistant_message := am,
               edits_summary := some (strArr proposal.edits_summary),
               needs_confirmation := proposal.needs_confirmation,
               status := if proposal.needs_confirmation then "pending" else "info" })

/-! ### Auxiliary predicates used by the theorems -/

/-- A character that is structurally inert for the brace scanner: not a
backslash, quote or brace. -/
def plainChar (c : Char) : Bool := !(c = '\\' || c = '"' || c = '{' || c = '}')

mutual

/-- All number literals stored in the value consist of inert characters
(digits, signs, dot, exponent letters qualify).  `Json.render` of such a
value is scanned transparently. -/
def Json.numsPlain : Json → Bool
  | .null => true
  | .bool _ => true
  | .str _ => true
  | .num lit => lit.toList.all plainChar
  | .arr items => numsPlainList items
  | .obj fields => numsPlainObj fields

/-- `Json.numsPlain` over array items. -/
def numsPlainList : List Json → Bool
  | [] => true
  | v :: rest => Json.numsPlain v && numsPlainList rest

/-- `Json.numsPlain` over object members. -/
def numsPlainObj : List (String × Json) → Bool
  | [] => true
  | (_, v) :: rest => Json.numsPlain v && numsPlainObj rest

end

/-- The spec invariant on an edit proposal: if confirmation is required
then the edits summary is non-empty. -/
def proposalConfirmInvariant (p : LLMEditProposal) : Prop :=
  p.needs_confirmation = true → p.edits_summary ≠ []

/-! ## Theorems about the claims -/

/-- Helper: validating a dumped string list recovers the list (worker
statement over the `mapM` loop). -/
theorem mapM_vStr_loop (l : List String) (acc : List String) :
    List.mapM.loop vStr (l.map Json.str) acc = some (acc.reverse ++ l) := by
  induction l generalizing acc with
  | nil => simp [List.mapM.loop]
  | cons a t ih => simp [List.mapM.loop, vStr, ih]

/-- Helper: element-wise validation of a dumped list recovers the list. -/
theorem mapM_valid_loop {α : Type} (f : α → Json) (g : Json → Option α)
    (hg : ∀ a, g (f a) = some a) (l : List α) (acc : List α) :
    List.mapM.loop g (l.map f) acc = some (acc.reverse ++ l) := by
  induction l generalizing acc with
  | nil => simp [List.mapM.loop]
  | cons a t ih => simp [List.mapM.loop, hg, ih]

/-- Round trip: validating a dumped header. -/
theorem validateHeader_dump (h : Header) : validateHeader h.dump = some h := rfl

/-- Round trip: validating a dumped education entry. -/
theorem validateEdu_dump (e : EducationEntry) : validateEdu e.dump = some e := by
  simp [validateEdu, EducationEntry.dump, vField, lookupLast, vStr, vListStr, strArr,
    List.mapM, mapM_vStr_loop]

/-- Round trip: validating a dumped experience entry. -/
theorem validateRole_dump (e : RoleEntry) : validateRole e.dump = some e := by
  simp [validateRole, RoleEntry.dump, vField, lookupLast, vStr, vListStr, strArr,
    List.mapM, mapM_vStr_loop]

/-- Round trip: validating a dumped project entry. -/
theorem validateProject_dump (e : ProjectEntry) : validateProject e.dump = some e := by
  simp [validateProject, ProjectEntry.dump, vField, lookupLast, vStr, vListStr, strArr,
    List.mapM, mapM_vStr_loop]

/-- Round trip: validating a dumped leadership entry. -/
theorem validateLeadership_dump (e : LeadershipEntry) :
    validateLeadership e.dump = some e := by
  simp [validateLeadership, LeadershipEntry.dump, vField, lookupLast, vStr, vListStr,
    strArr, List.mapM, mapM_vStr_loop]

/-- Round trip: validating a dumped skills aggregate. -/
theorem validateSkills_dump (s : Skills) : validateSkills s.dump = some s := by
  simp [validateSkills, Skills.dump, vField, lookupLast, vListStr, strArr,
    List.mapM, mapM_vStr_loop]

/-- Round trip: `Resume.model_validate` of `Resume.model_dump` recovers the
same document. -/
theorem validateResume_dump (r : Resume) : validateResume r.dump = some r := by
  simp [validateResume, Resume.dump, vField, lookupLast, vList, vListStr, strArr,
    List.mapM, mapM_vStr_loop, validateHeader_dump, validateSkills_dump,
    mapM_valid_loop EducationEntry.dump validateEdu validateEdu_dump,
    mapM_valid_loop RoleEntry.dump validateRole validateRole_dump,
    mapM_valid_loop ProjectEntry.dump validateProject validateProject_dump,
    mapM_valid_loop LeadershipEntry.dump validateLeadership validateLeadership_dump]

/-- C1: whenever both the first parse attempt and the repair retry fail,
`propose_chat_edits` returns the safe fallback proposal: the fixed
apologetic message, an empty edits summary, `proposed_resume` equal to the
dump of the current committed document (the `Resume` passed in, recovered
exactly by validation), and `needs_confirmation = false`.  The embedded
pipeline is a total Lean function — every branch returns a value — which is
the model of "this path never raises". -/
theorem fallback_path_safe :
    ∀ (r : Resume) (msg t1 t2 : String) (e1 e2 : ParseErr),
      parseProposalResponse t1 = .error e1 →
      parseProposalResponse t2 = .error e2 →
      (proposeChatEdits r msg t1 t2).1 = fallbackProposal r ∧
      (proposeChatEdits r msg t1 t2).1.assistant_message = fallbackMessage ∧
      (proposeChatEdits r msg t1 t2).1.edits_summary = [] ∧
      (proposeChatEdits r msg t1 t2).1.proposed_resume = r.dump ∧
      (proposeChatEdits r msg t1 t2).1.needs_confirmation = false ∧
      validateResume (proposeChatEdits r msg t1 t2).1.proposed_resume = some r := by
  intro r msg t1 t2 e1 e2 h1 h2
  have hp : proposeChatEdits r msg t1 t2 = (fallbackProposal r, [⟨1/5⟩, ⟨0⟩]) := by
    simp [proposeChatEdits, h1, h2]
  rw [hp]
  exact ⟨rfl, rfl, rfl, rfl, rfl, validateResume_dump r⟩

/-- C1 witness: both backend texts `x` and `y` fail extraction (no opening
brace), and the fallback is returned with the committed document intact. -/
theorem fallback_path_safe_witness :
    parseProposalResponse "x" = .error (.extraction .noObject) ∧
    parseProposalResponse "y" = .error (.extraction .noObject) ∧
    (proposeChatEdits {} "hi" "x" "y").1 = fallbackProposal {} ∧
    validateResume (proposeChatEdits {} "hi" "x" "y").1.proposed_resume = some {} := by
  refine ⟨rfl, rfl, ?_, ?_⟩
  · exact (fallback_path_safe {} "hi" "x" "y" (.extraction .noObject)
      (.extraction .noObject) rfl rfl).1
  · exact (fallback_path_safe {} "hi" "x" "y" (.extraction .noObject)
      (.extraction .noObject) rfl rfl).2.2.2.2.2

/-- C4: if the first attempt fails with any pipeline error, exactly one
repair call is issued at temperature zero (the calls are the first attempt
at temperature 1/5 followed by the retry at temperature 0), and extraction
and validation are re-run on the retry's output; the unbalanced input fails
extraction with the unterminated-object error; and every turn makes at most
two backend calls. -/
theorem repair_retry_policy :
    (∀ (r : Resume) (msg t1 t2 : String) (e : ParseErr),
      parseProposalResponse t1 = .error e →
      (proposeChatEdits r msg t1 t2).2 = [⟨1/5⟩, ⟨0⟩] ∧
      (proposeChatEdits r msg t1 t2).1 =
        (match parseProposalResponse t2 with
         | .ok p => p
         | .error _ => fallbackProposal r))
    ∧ extractJsonObject "\x7b\"a\": \"b\"" = .error .unterminated
    ∧ parseProposalResponse "\x7b\"a\": \"b\"" = .error (.extraction .unterminated)
    ∧ (∀ (r : Resume) (msg t1 t2 : String),
        (proposeChatEdits r msg t1 t2).2.length ≤ 2 ∧
        ((proposeChatEdits r msg t1 t2).2 = [⟨1/5⟩] ∨
          (proposeChatEdits r msg t1 t2).2 = [⟨1/5⟩, ⟨0⟩])) := by
  refine ⟨?_, rfl, rfl, ?_⟩
  · intro r msg t1 t2 e h1
    cases h2 : parseProposalResponse t2 with
    | ok p => exact ⟨by simp [proposeChatEdits, h1, h2], by simp [proposeChatEdits, h1, h2]⟩
    | error e2 => exact ⟨by simp [proposeChatEdits, h1, h2], by simp [proposeChatEdits, h1, h2]⟩
  · intro r msg t1 t2
    cases h1 : parseProposalResponse t1 with
    | ok p => simp [proposeChatEdits, h1]
    | error e =>
      cases h2 : parseProposalResponse t2 with
      | ok p => simp [proposeChatEdits, h1, h2]
      | error e2 => simp [proposeChatEdits, h1, h2]

/-- C4 witness: the retry policy at the concrete failing text `x` for both
calls: two calls are recorded, the second at temperature zero, and the
result is the fallback. -/
theorem repair_retry_policy_witness :
    parseProposalResponse "x" = .error (.extraction .noObject) ∧
    (proposeChatEdits {} "hello" "x" "x").2 = [⟨1/5⟩, ⟨0⟩] ∧
    (proposeChatEdits {} "hello" "x" "x").1 = fallbackProposal {} := by
  refine ⟨rfl, ?_, ?_⟩
  · exact (repair_retry_policy.1 {} "hello" "x" "x" (.extraction .noObject) rfl).1
  · exact (repair_retry_policy.1 {} "hello" "x" "x" (.extraction .noObject) rfl).2

/-- C5: evaluation of `_escape_latex` at the failing input, a single
backslash.  Although the backslash is replaced first, the braces of its
replacement text `TEXTBACKSLASH-BRACES` are then rewritten by the later
brace substitutions, so the output is the double-escaped
`TEXTBACKSLASH-ESCAPED-BRACES` and not the escape-table entry: the claimed
"escape sequence unmodified by the later brace substitutions" fails. -/
theorem escape_latex_backslash_double_escaped :
    escapeLatex "\\" = "\\textbackslash\\\x7b\\\x7d" ∧
    escapeLatex "\\" ≠ "\\textbackslash\x7b\x7d" := by
  exact ⟨rfl, by decide⟩

/-- C6 counterexample: an education entry that is empty after trimming (the
school field is a single space, every other field empty) still renders a
non-empty education section including the heading, because the code tests
fields for emptiness without trimming. -/
theorem education_heading_despite_trimmed_empty_entry :
    (pyStrip " " = "" ∧ pyStrip "" = "") ∧
    renderEducation { education := [{ school := " " }] } ≠ "" ∧
    isSubL "\\section*\x7bEducation\x7d".toList
      (renderEducation { education := [{ school := " " }] }).toList = true := by
  exact ⟨by decide, by decide, by decide⟩

/-- C6 amended: the education section renders to the empty string — heading
omitted — whenever every entry is exactly empty: all of its string fields
are the empty string (not merely whitespace) and every coursework item is
whitespace-only; and the education rendering depends only on the education
list, independently of every other section. -/
theorem education_section_omitted_when_empty :
    (∀ r : Resume,
      (∀ e ∈ r.education, e.school = "" ∧ e.degree = "" ∧ e.major = "" ∧
        e.grad = "" ∧ e.gpa = "" ∧ ∀ c ∈ e.coursework, pyStrip c = "") →
      renderEducation r = "")
    ∧ (∀ r r' : Resume, r.education = r'.education →
        renderEducation r = renderEducation r') := by
  constructor
  · intro r h
    have hlines : ∀ e ∈ r.education, renderEduEntryLines e = [] := by
      intro e he
      obtain ⟨h1, h2, h3, h4, h5, h6⟩ := h e he
      have hcw : e.coursework.filter (fun c => !decide (pyStrip c = "")) = [] := by
        rw [List.filter_eq_nil_iff]
        intro c hc
        simp [h6 c hc]
      simp only [renderEduEntryLines, h1, h2, h3, h4, h5, gpaShouldShow,
        escapeLatex, joinNonEmpty]
      simp [hcw]
      exact ⟨rfl, fun _ => rfl⟩
    have hempty : r.education.filterMap (fun edu =>
        let lines := renderEduEntryLines edu
        if lines ≠ [] then some (String.intercalate "\n" lines) else none) = [] := by
      rw [List.filterMap_eq_nil_iff]
      intro e he
      simp [hlines e he]
    simp only [renderEducation, hempty]
    rfl
  · intro r r' h
    simp only [renderEducation, h]

/-- C6 witness: the amended theorem applied to a document whose two
education entries are exactly empty (one with a whitespace-only coursework
item), and to the independence of the education rendering from the awards
list. -/
theorem education_section_omitted_when_empty_witness :
    renderEducation { education := [{}, { coursework := [" "] }] } = "" ∧
    renderEducation { education := [{}], awards := ["Dean list"] }
      = renderEducation { education := [{}] } := by
  constructor
  · exact education_section_omitted_when_empty.1
      { education := [{}, { coursework := [" "] }] } (by decide)
  · exact education_section_omitted_when_empty.2
      { education := [{}], awards := ["Dean list"] } { education := [{}] } (by decide)

/-- C7: the GPA display rule.  The GPA string is shown iff it is non-empty
and either parses (as Python `float`) to a value at least 7/2 or fails to
parse; concretely `3.2` is hidden while `3.5` and `Pass` are shown, also at
the level of the rendered education section. -/
theorem gpa_display_rule :
    (∀ g v, pyFloat g = some v →
      (gpaShouldShow g = true ↔ g ≠ "" ∧ pyFloatGe35 v = true))
    ∧ (∀ g, pyFloat g = none → (gpaShouldShow g = true ↔ g ≠ ""))
    ∧ (∀ num scale, pyFloatGe35 (PyFloat.fin num scale) = true ↔
        7/2 ≤ decValue num scale)
    ∧ gpaShouldShow "3.2" = false ∧ gpaShouldShow "3.5" = true
    ∧ gpaShouldShow "Pass" = true
    ∧ isSubL "GPA".toList
        (renderEducation { education := [{ school := "MIT", gpa := "3.2" }] }).toList = false
    ∧ isSubL "GPA".toList
        (renderEducation { education := [{ school := "MIT", gpa := "3.5" }] }).toList = true
    ∧ isSubL "GPA".toList
        (renderEducation { education := [{ school := "MIT", gpa := "Pass" }] }).toList = true := by
  refine ⟨?_, ?_, ?_, by decide, by decide, by decide, by decide, by decide, by decide⟩
  · intro g v hv
    by_cases hg : g = ""
    · subst hg
      have hnone : pyFloat "" = none := by decide
      rw [hnone] at hv
      cases hv
    · simp [gpaShouldShow, hg, hv]
  · intro g hv
    by_cases hg : g = ""
    · subst hg
      simp [gpaShouldShow]
    · simp [gpaShouldShow, hg, hv]
  · intro num scale
    by_cases h : 0 ≤ scale
    · simp only [pyFloatGe35, if_pos h, decValue, decide_eq_true_eq]
      rw [div_le_div_iff (by norm_num) (by positivity)]
      rw [mul_comm ((num : ℚ)) 2]
      exact_mod_cast Iff.rfl
    · simp only [pyFloatGe35, if_neg h, decValue, decide_eq_true_eq]
      rw [div_le_iff (by norm_num)]
      rw [mul_comm ((num : ℚ) * (10 : ℚ) ^ (-scale).toNat) 2, ← mul_assoc]
      exact_mod_cast Iff.rfl

/-- C7 witness: the display rule applied at the concrete inputs `3.5`
(which parses to the decimal 35/10 and is shown) and `Pass` (which does not
parse and is shown because non-empty). -/
theorem gpa_display_rule_witness :
    (pyFloat "3.5" = some (PyFloat.fin 35 1) ∧
      (gpaShouldShow "3.5" = true ↔ "3.5" ≠ "" ∧ pyFloatGe35 (PyFloat.fin 35 1) = true))
    ∧ (pyFloat "Pass" = none ∧ (gpaShouldShow "Pass" = true ↔ "Pass" ≠ ""))
    ∧ (pyFloatGe35 (PyFloat.fin 35 1) = true ↔ 7/2 ≤ decValue 35 1) := by
  refine ⟨⟨by decide, gpa_display_rule.1 "3.5" (PyFloat.fin 35 1) (by decide)⟩,
    ⟨by decide, gpa_display_rule.2.1 "Pass" (by decide)⟩,
    gpa_display_rule.2.2.1 35 1⟩

/-- Helper: a key that is not present in an object looks up to `none`. -/
theorem lookupLast_eq_none {kvs : List (String × Json)} {k : String}
    (h : hasKey kvs k = false) : lookupLast kvs k = none := by
  have h2 : ∀ kv ∈ kvs.reverse, ¬ (kv.1 == k) = true := by
    intro kv hkv hb
    have hm := List.mem_reverse.mp hkv
    have : hasKey kvs k = true := List.any_eq_true.mpr ⟨kv, hm, hb⟩
    rw [h] at this
    cases this
  simp only [lookupLast, List.find?_eq_none.mpr h2]

/-- C9: evaluation of the code at the failing input.  The skills payload
shape used by the code's own prompts and seed (llm.py `_build_parse_prompt`,
parser.py `seed_resume`), carrying a non-empty `categories` group map,
validates to exactly the same `Skills` value as the payload without
`categories`: the free-form named skill groups are silently dropped, since
the `Skills` model defines only the four flat list fields and no dump ever
contains a `categories` key.  The defaulting half of the claim does hold:
the empty payload validates to the all-empty document. -/
theorem skills_categories_dropped :
    (validateSkills (Json.obj [("languages", Json.arr []), ("frameworks", Json.arr []),
        ("tools", Json.arr []), ("concepts", Json.arr []),
        ("categories", Json.obj [("Laboratory", Json.arr [Json.str "Pipetting"])])])
      = some { languages := [], frameworks := [], tools := [], concepts := [] })
    ∧ (validateSkills (Json.obj [("languages", Json.arr []), ("frameworks", Json.arr []),
        ("tools", Json.arr []), ("concepts", Json.arr [])])
      = some { languages := [], frameworks := [], tools := [], concepts := [] })
    ∧ (∀ s : Skills,
        (match s.dump with | .obj kvs => hasKey kvs "categories" | _ => true) = false)
    ∧ validateResume (Json.obj []) = some {} := by
  exact ⟨rfl, rfl, fun s => rfl, rfl⟩

/-- C10: a payload that validates as an `LLMEditProposal` while omitting
`needs_confirmation` yields `needs_confirmation = true`, and omitting
`edits_summary` yields the empty summary; concretely, the full pipeline on
a response carrying only the two required keys returns the proposal with
`needs_confirmation = true` and empty summary. -/
theorem proposal_defaults :
    (∀ kvs p, hasKey kvs "needs_confirmation" = false →
      validateProposal (Json.obj kvs) = some p → p.needs_confirmation = true)
    ∧ (∀ kvs p, hasKey kvs "edits_summary" = false →
      validateProposal (Json.obj kvs) = some p → p.edits_summary = [])
    ∧ parseProposalResponse "\x7b\"assistant_message\": \"ok\", \"proposed_resume\": \x7b\x7d\x7d"
        = .ok ⟨"ok", [], Json.obj [], true⟩ := by
  refine ⟨?_, ?_, rfl⟩
  · intro kvs p hnk hv
    have hl := lookupLast_eq_none hnk
    simp only [validateProposal, Option.bind_eq_bind, Option.bind_eq_some] at hv
    obtain ⟨am, ham, es, hes, pr, hpr, nc, hnc, hp⟩ := hv
    simp only [vField, hl] at hnc
    cases hnc
    cases hp
    rfl
  · intro kvs p hes hv
    have hl := lookupLast_eq_none hes
    simp only [validateProposal, Option.bind_eq_bind, Option.bind_eq_some] at hv
    obtain ⟨am, ham, es, hesv, pr, hpr, nc, hnc, hp⟩ := hv
    simp only [vField, hl] at hesv
    cases hesv
    cases hp
    rfl

/-- C10 witness: the defaults at the concrete payload carrying only the two
required keys. -/
theorem proposal_defaults_witness :
    hasKey [("assistant_message", Json.str "ok"), ("proposed_resume", Json.obj [])]
      "needs_confirmation" = false
    ∧ hasKey [("assistant_message", Json.str "ok"), ("proposed_resume", Json.obj [])]
      "edits_summary" = false
    ∧ (⟨"ok", [], Json.obj [], true⟩ : LLMEditProposal).needs_confirmation = true
    ∧ (⟨"ok", [], Json.obj [], true⟩ : LLMEditProposal).edits_summary = [] := by
  refine ⟨by decide, by decide, ?_, ?_⟩
  · exact proposal_defaults.1
      [("assistant_message", Json.str "ok"), ("proposed_resume", Json.obj [])]
      ⟨"ok", [], Json.obj [], true⟩ (by decide) rfl
  · exact proposal_defaults.2.1
      [("assistant_message", Json.str "ok"), ("proposed_resume", Json.obj [])]
      ⟨"ok", [], Json.obj [], true⟩ (by decide) rfl

/-- C8 counterexample: a payload accepted by `_parse_proposal_response`
whose validated proposal has `needs_confirmation = true` and an empty
`edits_summary`: the claimed invariant fails, because validation applies
the per-field defaults and has no cross-field check. -/
theorem proposal_invariant_violation :
    parseProposalResponse "\x7b\"assistant_message\": \"hi\", \"proposed_resume\": \x7b\x7d\x7d"
      = .ok ⟨"hi", [], Json.obj [], true⟩ ∧
    ¬ proposalConfirmInvariant ⟨"hi", [], Json.obj [], true⟩ := by
  refine ⟨rfl, ?_⟩
  intro hinv
  exact (hinv rfl) rfl

/-- C8 amended: the validation step does not establish the invariant; it is
guaranteed on the safe-fallback path, whose proposal always has
`needs_confirmation = false` and an empty `edits_summary`, so the
implication holds there (vacuously). -/
theorem fallback_confirm_invariant :
    ∀ r : Resume, (fallbackProposal r).needs_confirmation = false ∧
      (fallbackProposal r).edits_summary = [] ∧
      proposalConfirmInvariant (fallbackProposal r) := by
  intro r
  refine ⟨rfl, rfl, ?_⟩
  intro h
  simp [fallbackProposal] at h

/-- C8 witness: the amended statement at the all-empty document. -/
theorem fallback_confirm_invariant_witness :
    (fallbackProposal {}).needs_confirmation = false ∧
      (fallbackProposal {}).edits_summary = [] ∧
      proposalConfirmInvariant (fallbackProposal {}) :=
  fallback_confirm_invariant {}

/-- C2: with a pending record whose status is `pending`, an affirmative
message commits the pending resume as the new committed document (written
to the draft key), marks the record applied and returns
`needs_confirmation = false`; a non-affirmative negative message marks the
record rejected, leaves the committed document (the draft key) unchanged
and returns `needs_confirmation = false`.  The affirmative branch is tested
first, so affirmative matching takes precedence. -/
theorem confirm_state_machine :
    ∀ (st : ChatState) (msg t1 t2 : String) (kvs : List (String × Json))
      (pres srcJson : Json) (rUpd cur : Resume),
      st.pending = some (Json.obj kvs) →
      lookupLast kvs "status" = some (Json.str "pending") →
      lookupLast kvs "resume" = some pres →
      validateResume pres = some rUpd →
      (st.draft <|> st.parsed) = some srcJson →
      validateResume srcJson = some cur →
      ((isAffirmative (pyStrip msg) = true →
        (chatResume st msg t1 t2).toOption.map
            (fun x => (x.1.draft, x.1.pending, x.2.needs_confirmation, x.2.status, x.2.resume))
          = some (some rUpd.dump,
              some (Json.obj (objSet kvs "status" (Json.str "applied"))),
              false, "applied", some rUpd.dump))
      ∧ (isAffirmative (pyStrip msg) = false → isNegative (pyStrip msg) = true →
        (chatResume st msg t1 t2).toOption.map
            (fun x => (x.1.draft, x.1.pending, x.2.needs_confirmation, x.2.status, x.2.resume))
          = some (st.draft,
              some (Json.obj (objSet kvs "status" (Json.str "rejected"))),
              false, "rejected", some cur.dump))) := by
  intro st msg t1 t2 kvs pres srcJson rUpd cur hpend hstat hres hval hsrc hcur
  constructor
  · intro haff
    simp only [chatResume, hpend, hstat, hres, hval, hsrc, hcur, haff]
    rfl
  · intro haff hneg
    simp only [chatResume, hpend, hstat, hres, hval, hsrc, hcur, haff, hneg]
    rfl

/-- C2 witness: a concrete state with a pending edit whose resume is the
empty payload; the message `yes` applies it and the message `no thanks`
rejects it without touching the draft. -/
theorem confirm_state_machine_witness :
    isAffirmative (pyStrip "yes") = true ∧
    isAffirmative (pyStrip "no thanks") = false ∧
    isNegative (pyStrip "no thanks") = true ∧
    ((chatResume ⟨none, some (Resume.dump {}), none,
        some (Json.obj [("status", Json.str "pending"), ("resume", Json.obj []),
          ("edits_summary", Json.arr [])])⟩ "yes" "" "").toOption.map
        (fun x => (x.1.draft, x.1.pending, x.2.needs_confirmation, x.2.status, x.2.resume))
      = some (some (Resume.dump {}),
          some (Json.obj (objSet [("status", Json.str "pending"), ("resume", Json.obj []),
            ("edits_summary", Json.arr [])] "status" (Json.str "applied"))),
          false, "applied", some (Resume.dump {}))) ∧
    ((chatResume ⟨none, some (Resume.dump {}), none,
        some (Json.obj [("status", Json.str "pending"), ("resume", Json.obj []),
          ("edits_summary", Json.arr [])])⟩ "no thanks" "" "").toOption.map
        (fun x => (x.1.draft, x.1.pending, x.2.needs_confirmation, x.2.status, x.2.resume))
      = some (none,
          some (Json.obj (objSet [("status", Json.str "pending"), ("resume", Json.obj []),
            ("edits_summary", Json.arr [])] "status" (Json.str "rejected"))),
          false, "rejected", some (Resume.dump {}))) := by
  refine ⟨by decide, by decide, by decide, ?_, ?_⟩
  · have h := (confirm_state_machine
      ⟨none, some (Resume.dump {}), none,
        some (Json.obj [("status", Json.str "pending"), ("resume", Json.obj []),
          ("edits_summary", Json.arr [])])⟩ "yes" "" ""
      [("status", Json.str "pending"), ("resume", Json.obj []),
        ("edits_summary", Json.arr [])]
      (Json.obj []) (Resume.dump {}) {} {}
      rfl rfl rfl rfl rfl (validateResume_dump {})).1 (by decide)
    exact h
  · have h := (confirm_state_machine
      ⟨none, some (Resume.dump {}), none,
        some (Json.obj [("status", Json.str "pending"), ("resume", Json.obj []),
          ("edits_summary", Json.arr [])])⟩ "no thanks" "" ""
      [("status", Json.str "pending"), ("resume", Json.obj []),
        ("edits_summary", Json.arr [])]
      (Json.obj []) (Resume.dump {}) {} {}
      rfl rfl rfl rfl rfl (validateResume_dump {})).2 (by decide) (by decide)
    exact h


theorem scanLoop_cons_esc (c : Char) (rest : List Char) (i : Nat) (d : Int) (inS : Bool) :
    scanLoop (c :: rest) i d inS true = scanLoop rest (i + 1) d inS false := by
  simp [scanLoop]

theorem scanLoop_cons_backslash (rest : List Char) (i : Nat) (d : Int) (inS : Bool) :
    scanLoop ('\\' :: rest) i d inS false = scanLoop rest (i + 1) d inS true := by
  simp [scanLoop]

theorem scanLoop_cons_quote (rest : List Char) (i : Nat) (d : Int) (inS : Bool) :
    scanLoop ('"' :: rest) i d inS false = scanLoop rest (i + 1) d (!inS) false := by
  simp [scanLoop]

theorem scanLoop_cons_inStr (c : Char) (rest : List Char) (i : Nat) (d : Int)
    (h1 : c ≠ '\\') (h2 : c ≠ '"') :
    scanLoop (c :: rest) i d true false = scanLoop rest (i + 1) d true false := by
  simp [scanLoop, h1, h2]

theorem scanLoop_cons_plain (c : Char) (rest : List Char) (i : Nat) (d : Int)
    (h : plainChar c = true) :
    scanLoop (c :: rest) i d false false = scanLoop rest (i + 1) d false false := by
  have hc : ¬(c = '\\' ∨ c = '"' ∨ c = '{' ∨ c = '}') := by
    intro hor
    rcases hor with h1 | h1 | h1 | h1 <;> simp [plainChar, h1] at h
  push_neg at hc
  simp [scanLoop, hc.1, hc.2.1, hc.2.2.1, hc.2.2.2]

theorem scanLoop_cons_open (rest : List Char) (i : Nat) (d : Int) :
    scanLoop ('{' :: rest) i d false false = scanLoop rest (i + 1) (d + 1) false false := by
  simp [scanLoop]

theorem scanLoop_cons_close (rest : List Char) (i : Nat) (d : Int) (h : ¬ d - 1 = 0) :
    scanLoop ('}' :: rest) i d false false = scanLoop rest (i + 1) (d - 1) false false := by
  simp [scanLoop, h]

theorem scanLoop_cons_close_done (rest : List Char) (i : Nat) (d : Int) (h : d - 1 = 0) :
    scanLoop ('}' :: rest) i d false false = some i := by
  simp [scanLoop, h]

theorem scanLoop_plain (l : List Char) (hl : ∀ c ∈ l, plainChar c = true)
    (rest : List Char) (i : Nat) (d : Int) :
    scanLoop (l ++ rest) i d false false = scanLoop rest (i + l.length) d false false := by
  induction l generalizing i with
  | nil => simp
  | cons c t ih =>
    have ht : ∀ x ∈ t, plainChar x = true := fun x hx => hl x (by simp [hx])
    rw [List.cons_append, scanLoop_cons_plain c _ _ _ (hl c (by simp)), ih ht (i + 1)]
    congr 1
    simp
    omega

theorem scanLoop_string_body (s : List Char) (rest : List Char) (i : Nat) (d : Int) :
    scanLoop ((s.map escJsonChar).flatten ++ rest) i d true false
      = scanLoop rest (i + ((s.map escJsonChar).flatten).length) d true false := by
  induction s generalizing i with
  | nil => simp
  | cons c t ih =>
    simp only [List.map_cons, List.flatten_cons, List.append_assoc]
    by_cases h1 : c = '\\'
    · subst h1
      rw [show escJsonChar '\\' = ['\\', '\\'] from rfl]
      simp only [List.cons_append, List.nil_append]
      rw [scanLoop_cons_backslash, scanLoop_cons_esc, ih (i + 1 + 1)]
      congr 1
      simp [escJsonChar]
      omega
    · by_cases h2 : c = '"'
      · subst h2
        rw [show escJsonChar '"' = ['\\', '"'] from rfl]
        simp only [List.cons_append, List.nil_append]
        rw [scanLoop_cons_backslash, scanLoop_cons_esc, ih (i + 1 + 1)]
        congr 1
        simp [escJsonChar]
        omega
      · rw [show escJsonChar c = [c] from by simp [escJsonChar, h1, h2]]
        simp only [List.cons_append, List.nil_append]
        rw [scanLoop_cons_inStr c _ _ _ h1 h2, ih (i + 1)]
        congr 1
        simp [escJsonChar, h1, h2]
        omega

theorem scanLoop_jstring (s : String) (rest : List Char) (i : Nat) (d : Int) :
    scanLoop (renderJString s ++ rest) i d false false
      = scanLoop rest (i + (renderJString s).length) d false false := by
  simp only [renderJString, List.cons_append, List.append_assoc]
  rw [scanLoop_cons_quote]
  simp only [List.cons_append, List.nil_append, Bool.not_false]
  rw [scanLoop_string_body, scanLoop_cons_quote]
  simp only [Bool.not_true]
  congr 1
  simp
  omega


mutual

theorem render_transparent (v : Json) (hv : v.numsPlain = true) (rest : List Char)
    (i : Nat) (d : Int) (hd : 1 ≤ d) :
    scanLoop (v.render ++ rest) i d false false
      = scanLoop rest (i + v.render.length) d false false := by
  cases v with
  | null => exact scanLoop_plain _ (by decide) rest i d
  | bool b =>
    cases b
    · exact scanLoop_plain _ (by decide) rest i d
    · exact scanLoop_plain _ (by decide) rest i d
  | num lit =>
    refine scanLoop_plain _ ?_ rest i d
    simp only [Json.numsPlain, List.all_eq_true] at hv
    exact hv
  | str s => exact scanLoop_jstring s rest i d
  | arr items =>
    simp only [Json.numsPlain] at hv
    simp only [Json.render, List.cons_append, List.append_assoc]
    rw [scanLoop_cons_plain '[' _ _ _ (by decide),
      renderJList_transparent items hv _ (i + 1) d hd]
    simp only [List.cons_append, List.nil_append]
    rw [scanLoop_cons_plain ']' _ _ _ (by decide)]
    congr 1
    simp
    omega
  | obj fields =>
    simp only [Json.numsPlain] at hv
    simp only [Json.render, List.cons_append, List.append_assoc]
    rw [scanLoop_cons_open,
      renderJObj_transparent fields hv _ (i + 1) (d + 1) (by omega)]
    simp only [List.cons_append, List.nil_append]
    rw [scanLoop_cons_close _ _ _ (by omega)]
    rw [show d + 1 - 1 = d from by omega]
    congr 1
    simp
    omega

theorem renderJList_transparent (xs : List Json) (hx : numsPlainList xs = true)
    (rest : List Char) (i : Nat) (d : Int) (hd : 1 ≤ d) :
    scanLoop (renderJList xs ++ rest) i d false false
      = scanLoop rest (i + (renderJList xs).length) d false false := by
  cases xs with
  | nil => simp [renderJList]
  | cons v t =>
    cases t with
    | nil =>
      simp only [numsPlainList, Bool.and_eq_true] at hx
      simp only [renderJList]
      exact render_transparent v hx.1 rest i d hd
    | cons w t2 =>
      simp only [numsPlainList, Bool.and_eq_true] at hx
      simp only [renderJList, List.append_assoc]
      rw [render_transparent v hx.1 _ i d hd]
      simp only [List.cons_append]
      rw [scanLoop_cons_plain ',' _ _ _ (by decide)]
      rw [renderJList_transparent (w :: t2) (by simp [numsPlainList, hx.2.1, hx.2.2]) _ _ d hd]
      congr 1
      simp [renderJList]
      omega

theorem renderJObj_transparent (kvs : List (String × Json)) (hx : numsPlainObj kvs = true)
    (rest : List Char) (i : Nat) (d : Int) (hd : 1 ≤ d) :
    scanLoop (renderJObj kvs ++ rest) i d false false
      = scanLoop rest (i + (renderJObj kvs).length) d false false := by
  cases kvs with
  | nil => simp [renderJObj]
  | cons kv t =>
    obtain ⟨k, v⟩ := kv
    cases t with
    | nil =>
      simp only [numsPlainObj, Bool.and_eq_true] at hx
      simp only [renderJObj, List.append_assoc]
      rw [scanLoop_jstring k _ i d]
      simp only [List.cons_append]
      rw [scanLoop_cons_plain ':' _ _ _ (by decide)]
      rw [render_transparent v hx.1 rest _ d hd]
      congr 1
      simp
      omega
    | cons kv2 t2 =>
      simp only [numsPlainObj, Bool.and_eq_true] at hx
      simp only [renderJObj, List.append_assoc]
      rw [scanLoop_jstring k _ i d]
      simp only [List.cons_append]
      rw [scanLoop_cons_plain ':' _ _ _ (by decide)]
      rw [render_transparent v hx.1 _ _ d hd]
      rw [scanLoop_cons_plain ',' _ _ _ (by decide)]
      rw [renderJObj_transparent (kv2 :: t2) (by
        obtain ⟨k2, v2⟩ := kv2
        simp [numsPlainObj, hx.2.1, hx.2.2]) _ _ d hd]
      congr 1
      simp [renderJObj]
      omega

end

theorem scanLoop_obj (kvs : List (String × Json)) (h : numsPlainObj kvs = true)
    (rest : List Char) (i : Nat) :
    scanLoop (Json.render (.obj kvs) ++ rest) i 0 false false
      = some (i + (Json.render (.obj kvs)).length - 1) := by
  simp only [Json.render, List.cons_append, List.append_assoc]
  rw [scanLoop_cons_open]
  simp only [zero_add]
  rw [renderJObj_transparent kvs h _ (i + 1) 1 (by omega)]
  simp only [List.cons_append, List.nil_append]
  rw [scanLoop_cons_close_done _ _ _ (by omega)]
  congr 1
  simp
  omega


theorem lstripL_cons_not_ws {c : Char} (l : List Char) (h : pyWs c = false) :
    lstripL (c :: l) = c :: l := by
  simp [lstripL, List.dropWhile_cons, h]

theorem lstripL_append (a b : List Char) :
    lstripL (a ++ b) = if lstripL a = [] then lstripL b else lstripL a ++ b := by
  simp only [lstripL, List.dropWhile_append]
  split_ifs with h1 h2 h3 <;> simp_all [List.isEmpty_iff]

theorem rstripL_concat_not_ws {c : Char} (l : List Char) (h : pyWs c = false) :
    rstripL (l ++ [c]) = l ++ [c] := by
  simp [rstripL, List.reverse_append, List.dropWhile_cons, h]

theorem rstripL_append (a b : List Char) :
    rstripL (a ++ b) = if rstripL b = [] then rstripL a else a ++ rstripL b := by
  have hcond : (List.dropWhile pyWs b.reverse).isEmpty = true ↔ rstripL b = [] := by
    simp [rstripL, List.isEmpty_iff, List.reverse_eq_nil_iff]
  rw [rstripL, List.reverse_append, List.dropWhile_append]
  by_cases h : rstripL b = []
  · rw [if_pos (hcond.mpr h), if_pos h]
    rfl
  · rw [if_neg (fun hh => h (hcond.mp (by simp [hh]))), if_neg h]
    simp [rstripL]

theorem fenceHead_false {c : Char} (l : List Char) (h : c ≠ backquote) :
    fenceHead (c :: l) = false := by
  cases l with
  | nil => rfl
  | cons c2 l2 =>
    cases l2 with
    | nil => rfl
    | cons c3 l3 => simp [fenceHead, h]

theorem lstripL_head_mem {pre : List Char} {c : Char} {t : List Char}
    (h : lstripL pre = c :: t) : c ∈ pre := by
  have hmem : c ∈ lstripL pre := by
    rw [h]
    simp
  exact (List.dropWhile_sublist pyWs).subset hmem

theorem findIdx_brace_append (l1 l2 : List Char) (h : '{' ∉ l1) :
    List.findIdx? (fun c => c = '{') (l1 ++ '{' :: l2) = some l1.length := by
  induction l1 with
  | nil => simp [List.findIdx?_cons]
  | cons c t ih =>
    have hc : ¬ (c = '{') := by
      intro hh
      exact h (by simp [hh])
    have ht : '{' ∉ t := fun hm => h (List.mem_cons_of_mem _ hm)
    simp [List.findIdx?_cons, hc, ih ht]



theorem extract_tail (l1 l2 : List Char) (kvs : List (String × Json))
    (hplain : numsPlainObj kvs = true) (h1 : '{' ∉ l1) :
    (match List.findIdx? (fun c => c = '{') (l1 ++ (Json.render (.obj kvs) ++ l2)) with
     | none => Except.error ExtractErr.noObject
     | some start =>
       match scanLoop ((l1 ++ (Json.render (.obj kvs) ++ l2)).drop start) start 0 false false with
       | none => Except.error ExtractErr.unterminated
       | some e =>
         Except.ok (String.mk (((l1 ++ (Json.render (.obj kvs) ++ l2)).drop start).take
           (e - start + 1))))
      = Except.ok (String.mk (Json.render (.obj kvs))) := by
  have hobj : Json.render (.obj kvs) = '{' :: (renderJObj kvs ++ ['}']) := rfl
  have hlen1 : 1 ≤ (Json.render (.obj kvs)).length := by
    rw [hobj]
    simp
  have hfi : List.findIdx? (fun c => c = '{') (l1 ++ (Json.render (.obj kvs) ++ l2))
      = some l1.length := by
    rw [show l1 ++ (Json.render (.obj kvs) ++ l2)
        = l1 ++ ('{' :: (renderJObj kvs ++ ['}'] ++ l2)) from by
      rw [hobj]
      simp]
    exact findIdx_brace_append l1 _ h1
  rw [hfi]
  show (match scanLoop ((l1 ++ (Json.render (.obj kvs) ++ l2)).drop l1.length)
        l1.length 0 false false with
     | none => Except.error ExtractErr.unterminated
     | some e =>
       Except.ok (String.mk (((l1 ++ (Json.render (.obj kvs) ++ l2)).drop l1.length).take
         (e - l1.length + 1))))
      = Except.ok (String.mk (Json.render (.obj kvs)))
  rw [List.drop_left]
  rw [scanLoop_obj kvs hplain _ l1.length]
  show Except.ok (String.mk ((Json.render (.obj kvs) ++ l2).take
      (l1.length + (Json.render (.obj kvs)).length - 1 - l1.length + 1)))
    = Except.ok (String.mk (Json.render (.obj kvs)))
  have harith : l1.length + (Json.render (.obj kvs)).length - 1 - l1.length + 1
      = (Json.render (.obj kvs)).length := by
    omega
  rw [harith, List.take_left]

theorem extract_commentary (kvs : List (String × Json)) (pre post : List Char)
    (hplain : numsPlainObj kvs = true)
    (hbrace : '{' ∉ pre) (hbq : backquote ∉ pre)
    (hfast : lstripL pre = [] → rstripL post ≠ [] → (rstripL post).getLast? ≠ some '}') :
    extractJsonObject (String.mk (pre ++ (Json.render (.obj kvs) ++ post)))
      = .ok (String.mk (Json.render (.obj kvs))) := by
  have hobj : Json.render (.obj kvs) = '{' :: (renderJObj kvs ++ ['}']) := rfl
  have hrs : ∀ x : List Char, rstripL ((x ++ Json.render (.obj kvs)) ++ post)
      = (x ++ Json.render (.obj kvs)) ++ rstripL post := by
    intro x
    rw [rstripL_append]
    split_ifs with hpost
    · rw [hpost]
      simp only [List.append_nil]
      have hsh : x ++ Json.render (.obj kvs) = (x ++ ('{' :: renderJObj kvs)) ++ ['}'] := by
        rw [hobj]
        simp
      rw [hsh, rstripL_concat_not_ws _ (by decide), ← hsh]
    · rfl
  have hstrip : pyStripL (pre ++ (Json.render (.obj kvs) ++ post))
      = lstripL pre ++ (Json.render (.obj kvs) ++ rstripL post) := by
    rw [pyStripL, lstripL_append]
    by_cases hpre : lstripL pre = []
    · rw [if_pos hpre, hpre]
      have hx : lstripL (Json.render (.obj kvs) ++ post)
          = Json.render (.obj kvs) ++ post := by
        rw [hobj, List.cons_append, lstripL_cons_not_ws _ (by decide)]
      rw [hx]
      have h0 := hrs []
      simpa using h0
    · rw [if_neg hpre]
      have h2 : lstripL pre ++ (Json.render (.obj kvs) ++ post)
          = (lstripL pre ++ Json.render (.obj kvs)) ++ post := by
        simp
      rw [h2, hrs (lstripL pre)]
      simp
  have hfh : fenceHead (pyStripL (pre ++ (Json.render (.obj kvs) ++ post))) = false := by
    rw [hstrip]
    cases hpre : lstripL pre with
    | nil =>
      simp only [List.nil_append]
      rw [hobj, List.cons_append]
      exact fenceHead_false _ (by decide)
    | cons c t =>
      have hcb : c ≠ backquote := fun he => hbq (he ▸ lstripL_head_mem hpre)
      simp only [List.cons_append]
      exact fenceHead_false _ hcb
  have hsf : (stripFences (String.mk (pre ++ (Json.render (.obj kvs) ++ post)))).toList
      = lstripL pre ++ (Json.render (.obj kvs) ++ rstripL post) := by
    simp only [stripFences]
    rw [show (String.mk (pre ++ (Json.render (.obj kvs) ++ post))).toList
        = pre ++ (Json.render (.obj kvs) ++ post) from rfl]
    rw [hfh]
    simp only [Bool.false_eq_true, if_false]
    rw [show (String.mk (pyStripL (pre ++ (Json.render (.obj kvs) ++ post)))).toList
        = pyStripL (pre ++ (Json.render (.obj kvs) ++ post)) from rfl]
    exact hstrip
  rw [extractJsonObject]
  rw [hsf]
  by_cases hpre : lstripL pre = []
  · rw [hpre]
    simp only [List.nil_append]
    by_cases hpost : rstripL post = []
    · rw [hpost]
      simp only [List.append_nil]
      rw [hobj]
      rw [if_neg (by simp)]
      have hc2 : ('{' :: (renderJObj kvs ++ ['}'])).getLast? = some '}' := by
        rw [show ('{' :: (renderJObj kvs ++ ['}'])) = ('{' :: renderJObj kvs) ++ ['}'] from by
          simp]
        rw [List.getLast?_append_cons]
        rfl
      rw [if_pos ⟨rfl, hc2⟩]
    · have hgl : (rstripL post).getLast? ≠ some '}' := hfast hpre hpost
      have hne : (Json.render (.obj kvs) ++ rstripL post).isEmpty = false := by
        rw [hobj]
        simp
      rw [if_neg (by simp [hne])]
      rw [if_neg (fun hcond => hgl (by
        have h2 := hcond.2
        rwa [List.getLast?_append_of_ne_nil _ hpost] at h2))]
      rw [show Json.render (.obj kvs) ++ rstripL post
          = [] ++ (Json.render (.obj kvs) ++ rstripL post) from rfl]
      exact extract_tail [] (rstripL post) kvs hplain (by simp)
  · obtain ⟨c, t, hct⟩ : ∃ c t, lstripL pre = c :: t := by
      cases h : lstripL pre with
      | nil => exact absurd h hpre
      | cons c t => exact ⟨c, t, rfl⟩
    rw [hct]
    have hsubpre : ∀ x, x ∈ lstripL pre → x ∈ pre :=
      fun x hx => (List.dropWhile_sublist pyWs).subset hx
    have hcne : c ≠ '{' := by
      intro he
      exact hbrace (he ▸ hsubpre c (by rw [hct]; simp))
    have htne : '{' ∉ (c :: t) := by
      intro hm
      exact hbrace (hsubpre '{' (by rw [hct]; exact hm))
    rw [if_neg (by simp)]
    rw [if_neg (fun hcond => hcne (by
      have h1 := hcond.1
      simp at h1
      exact h1))]
    exact extract_tail (c :: t) (rstripL post) kvs hplain htne


theorem splitFenceGo_body (body : List Char) (acc : List Char)
    (hb : backquote ∉ body) :
    splitFenceGo (body ++ [backquote, backquote, backquote]) acc
      = [acc.reverse ++ body, []] := by
  induction body generalizing acc with
  | nil =>
    simp only [List.nil_append, List.append_nil]
    rw [splitFenceGo]
    simp [fenceHead, splitFenceGo]
  | cons c rest ih =>
    have hcb : c ≠ backquote := fun he => hb (by simp [he])
    rw [List.cons_append, splitFenceGo, fenceHead_false _ hcb]
    simp only [Bool.false_eq_true, if_false]
    rw [ih (c :: acc) (fun hm => hb (List.mem_cons_of_mem _ hm))]
    simp

theorem extract_fenced (kvs : List (String × Json))
    (hplain : numsPlainObj kvs = true)
    (hbq : backquote ∉ Json.render (.obj kvs)) :
    extractJsonObject (String.mk
      ([backquote, backquote, backquote] ++ ("json\n".toList ++ (Json.render (.obj kvs)
        ++ ("\n".toList ++ [backquote, backquote, backquote])))))
      = .ok (String.mk (Json.render (.obj kvs))) := by
  have hobj : Json.render (.obj kvs) = '{' :: (renderJObj kvs ++ ['}']) := rfl
  have hbody : backquote ∉ ("json\n".toList ++ (Json.render (.obj kvs) ++ "\n".toList)) := by
    intro hm
    rcases List.mem_append.mp hm with h | h
    · simp at h
      rcases h with h | h | h | h | h <;> exact absurd h.symm (by decide)
    · rcases List.mem_append.mp h with h | h
      · exact hbq h
      · simp at h
        exact absurd h.symm (by decide)
  have hlast : ('{' :: (renderJObj kvs ++ ['}'])).getLast? = some '}' := by
    rw [show ('{' :: (renderJObj kvs ++ ['}'])) = ('{' :: renderJObj kvs) ++ ['}'] from by
      simp]
    rw [List.getLast?_append_cons]
    rfl
  have hrsobj : rstripL (Json.render (.obj kvs)) = Json.render (.obj kvs) := by
    rw [show Json.render (.obj kvs) = ('{' :: renderJObj kvs) ++ ['}'] from by
      rw [hobj]
      simp]
    exact rstripL_concat_not_ws _ (by decide)
  have hT : pyStripL ([backquote, backquote, backquote] ++ ("json\n".toList
      ++ (Json.render (.obj kvs) ++ ("\n".toList ++ [backquote, backquote, backquote]))))
      = [backquote, backquote, backquote] ++ ("json\n".toList
        ++ (Json.render (.obj kvs) ++ ("\n".toList ++ [backquote, backquote, backquote]))) := by
    rw [pyStripL]
    rw [show [backquote, backquote, backquote] ++ ("json\n".toList
        ++ (Json.render (.obj kvs) ++ ("\n".toList ++ [backquote, backquote, backquote])))
        = backquote :: (backquote :: backquote :: ("json\n".toList
          ++ (Json.render (.obj kvs) ++ ("\n".toList
            ++ [backquote, backquote, backquote])))) from by simp]
    rw [lstripL_cons_not_ws _ (by decide)]
    rw [show backquote :: (backquote :: backquote :: ("json\n".toList
        ++ (Json.render (.obj kvs) ++ ("\n".toList ++ [backquote, backquote, backquote]))))
        = (backquote :: backquote :: backquote :: ("json\n".toList
          ++ (Json.render (.obj kvs) ++ ('\n' :: [backquote, backquote])))) ++ [backquote]
        from by simp]
    rw [rstripL_concat_not_ws _ (by decide)]
  have hsplit : splitFenceGo ([backquote, backquote, backquote] ++ ("json\n".toList
      ++ (Json.render (.obj kvs) ++ ("\n".toList ++ [backquote, backquote, backquote])))) []
      = [[], "json\n".toList ++ (Json.render (.obj kvs) ++ "\n".toList), []] := by
    rw [show [backquote, backquote, backquote] ++ ("json\n".toList
        ++ (Json.render (.obj kvs) ++ ("\n".toList ++ [backquote, backquote, backquote])))
        = backquote :: (backquote :: backquote :: (("json\n".toList
          ++ (Json.render (.obj kvs) ++ "\n".toList))
            ++ [backquote, backquote, backquote])) from by simp]
    rw [splitFenceGo]
    rw [show fenceHead (backquote :: (backquote :: backquote :: (("json\n".toList
        ++ (Json.render (.obj kvs) ++ "\n".toList)) ++ [backquote, backquote, backquote])))
        = true from by simp [fenceHead]]
    simp only [if_true]
    rw [show (backquote :: backquote :: (("json\n".toList
        ++ (Json.render (.obj kvs) ++ "\n".toList)) ++ [backquote, backquote, backquote])).drop 2
        = ("json\n".toList ++ (Json.render (.obj kvs) ++ "\n".toList))
          ++ [backquote, backquote, backquote] from by simp]
    rw [splitFenceGo_body _ [] (by
      intro hm
      exact hbody (by simpa using hm))]
    simp
  have hvalue2 : pyStripL ("json\n".toList ++ (Json.render (.obj kvs) ++ "\n".toList))
      = "json\n".toList ++ Json.render (.obj kvs) := by
    rw [pyStripL]
    rw [show "json\n".toList ++ (Json.render (.obj kvs) ++ "\n".toList)
        = 'j' :: ("son\n".toList ++ (Json.render (.obj kvs) ++ "\n".toList)) from by simp]
    rw [lstripL_cons_not_ws _ (by decide)]
    rw [show 'j' :: ("son\n".toList ++ (Json.render (.obj kvs) ++ "\n".toList))
        = ("json\n".toList ++ Json.render (.obj kvs)) ++ ['\n'] from by simp]
    rw [rstripL_append]
    rw [if_pos (by decide)]
    rw [show "json\n".toList ++ Json.render (.obj kvs)
        = ("json\n".toList ++ ('{' :: renderJObj kvs)) ++ ['}'] from by
      rw [hobj]
      simp]
    rw [rstripL_concat_not_ws _ (by decide)]
  have hstrip2 : pyStripL ('\n' :: Json.render (.obj kvs)) = Json.render (.obj kvs) := by
    rw [pyStripL, lstripL, List.dropWhile_cons]
    rw [if_pos (by decide)]
    rw [show List.dropWhile pyWs (Json.render (.obj kvs)) = Json.render (.obj kvs) from by
      rw [hobj, List.dropWhile_cons, if_neg (by decide)]]
    exact hrsobj
  have hsf : (stripFences (String.mk ([backquote, backquote, backquote] ++ ("json\n".toList
      ++ (Json.render (.obj kvs) ++ ("\n".toList ++ [backquote, backquote, backquote])))))).toList
      = Json.render (.obj kvs) := by
    simp only [stripFences]
    rw [show (String.mk ([backquote, backquote, backquote] ++ ("json\n".toList
        ++ (Json.render (.obj kvs) ++ ("\n".toList
          ++ [backquote, backquote, backquote]))))).toList
        = [backquote, backquote, backquote] ++ ("json\n".toList
          ++ (Json.render (.obj kvs) ++ ("\n".toList ++ [backquote, backquote, backquote])))
        from rfl]
    rw [hT]
    rw [show fenceHead ([backquote, backquote, backquote] ++ ("json\n".toList
        ++ (Json.render (.obj kvs) ++ ("\n".toList ++ [backquote, backquote, backquote]))))
        = true from by simp [fenceHead]]
    simp only [if_true]
    rw [hsplit]
    simp only []
    rw [hvalue2]
    rw [show ("json\n".toList ++ Json.render (.obj kvs)).map Char.toLower
        = 'j' :: 's' :: 'o' :: 'n' :: '\n' :: (Json.render (.obj kvs)).map Char.toLower
        from by simp]
    rw [show ("json".toList).isPrefixOf ('j' :: 's' :: 'o' :: 'n' :: '\n'
        :: (Json.render (.obj kvs)).map Char.toLower) = true from rfl]
    simp only [if_true]
    rw [show ("json\n".toList ++ Json.render (.obj kvs)).drop 4
        = '\n' :: Json.render (.obj kvs) from by simp]
    rw [show (String.mk (pyStripL ('\n' :: Json.render (.obj kvs)))).toList
        = pyStripL ('\n' :: Json.render (.obj kvs)) from rfl]
    exact hstrip2
  rw [extractJsonObject]
  rw [hsf]
  rw [hobj]
  rw [if_neg (by simp)]
  rw [if_pos ⟨rfl, hlast⟩]


/-- C3 counterexample: the input consists of exactly one valid JSON object
(the prefix, certified by `jsonLoads`) followed by the free-form commentary
` x BRACE`.  The trimmed text both starts with an opening brace and ends
with a closing brace, so the fast path of `_extract_json_object` returns
the whole text rather than exactly the object text. -/
theorem extraction_whole_text_counterexample :
    jsonLoads "\x7b\"a\": 1\x7d" = some (Json.obj [("a", Json.num "1")]) ∧
    extractJsonObject "\x7b\"a\": 1\x7d x\x7d" = .ok "\x7b\"a\": 1\x7d x\x7d" ∧
    ("\x7b\"a\": 1\x7d x\x7d" : String) ≠ "\x7b\"a\": 1\x7d" := by
  refine ⟨rfl, rfl, by decide⟩

/-- C3 amended: extraction (after fence stripping) returns exactly the
embedded object's text, provided the commentary before the object contains
no opening brace and no backtick, and the input does not take the
degenerate form in which only whitespace precedes the object while the
trailing commentary ends with a closing brace (then the fast path returns
the whole trimmed text, as the counterexample shows).  Separately, a
fence-wrapped object with a `json` language tag and no backtick inside is
isolated exactly.  Embedded JSON objects are represented by the canonical
serializer `Json.render`, with number literals restricted to scanner-inert
characters; the scan from the first opening brace tracks brace depth and
treats characters inside quoted strings, including escaped quotes, as
non-structural, as claimed. -/
theorem extraction_isolates_object :
    (∀ (kvs : List (String × Json)) (pre post : List Char),
      numsPlainObj kvs = true → '{' ∉ pre → backquote ∉ pre →
      (lstripL pre = [] → rstripL post ≠ [] → (rstripL post).getLast? ≠ some '}') →
      extractJsonObject (String.mk (pre ++ (Json.render (.obj kvs) ++ post)))
        = .ok (String.mk (Json.render (.obj kvs))))
    ∧ (∀ kvs : List (String × Json),
      numsPlainObj kvs = true → backquote ∉ Json.render (.obj kvs) →
      extractJsonObject (String.mk ([backquote, backquote, backquote] ++ ("json\n".toList
        ++ (Json.render (.obj kvs) ++ ("\n".toList ++ [backquote, backquote, backquote])))))
        = .ok (String.mk (Json.render (.obj kvs)))) :=
  ⟨fun kvs pre post h1 h2 h3 h4 => extract_commentary kvs pre post h1 h2 h3 h4,
   fun kvs h1 h2 => extract_fenced kvs h1 h2⟩

/-- C3 witness: the amended theorem applied to the object with one field
`a: 1`, once with commentary on both sides (the trailing commentary even
containing braces) and once wrapped in a `json` code fence. -/
theorem extraction_isolates_object_witness :
    extractJsonObject (String.mk ("note: ".toList
      ++ (Json.render (.obj [("a", Json.num "1")]) ++ " \x7bthanks\x7d".toList)))
      = .ok (String.mk (Json.render (.obj [("a", Json.num "1")]))) ∧
    extractJsonObject (String.mk ([backquote, backquote, backquote] ++ ("json\n".toList
      ++ (Json.render (.obj [("a", Json.num "1")])
        ++ ("\n".toList ++ [backquote, backquote, backquote])))))
      = .ok (String.mk (Json.render (.obj [("a", Json.num "1")]))) := by
  constructor
  · exact extraction_isolates_object.1 [("a", Json.num "1")] "note: ".toList
      " \x7bthanks\x7d".toList (by decide) (by decide) (by decide) (by decide)
  · exact extraction_isolates_object.2 [("a", Json.num "1")] (by decide) (by decide)

end ResumeProj







